import Mathlib

/-! # OpenAI-tools: the two DALL-E command line programs

A shallow embedding of `dall-e/generate-image-from-text/main.go` and
`dall-e/edit-image/main.go`, together with the parts of the Go standard library and of
`go-playground/validator` that the two programs call.

Conventions of the embedding.

* A Go `string` is a Lean `String`; `len`-like notions that the libraries compute in runes
  (the validator's `max` on a string) are `String.length`.
* A `[]byte` is a `List Nat`; a list is a byte sequence when all its entries are below 256.
* A Go `error` result is an `Option GoError` (`none` is `nil`), a `(value, error)` pair an
  `Except GoError value`.
* A `*os.File` is an `Option OsFile` (`none` is the nil pointer).
* The file system is explicit state: a map from paths to contents plus the errors that the
  operating system reports for each path.
* `log.Printf`, `log.Fatal` and the calls of `DecodeBase64AndSaveImg` made by `main` are
  recorded in a trace.
-/

/-! ## Go runtime and standard library -/

/-- Go `error` values that the two programs can observe. -/
inductive GoError where
  /-- The `base64.CorruptInputError` of `encoding/base64`. -/
  | corruptInput
  /-- The `os.ErrInvalid` returned by methods of a nil `*os.File`. -/
  | errInvalid
  /-- An `errors.New(msg)` value. -/
  | new (msg : String)
  /-- Any error reported by the operating system or the network. -/
  | sys (msg : String)
  deriving DecidableEq, Repr

namespace Go

/-- The `strings.Trim(s, cutset)` of the standard library: all leading and trailing code points
contained in `cutset` are removed. -/
def Trim (s cutset : String) : String :=
  ⟨((s.data.dropWhile (fun c => cutset.data.contains c)).reverse.dropWhile
      (fun c => cutset.data.contains c)).reverse⟩

/-- Left-to-right scan of `strings.Replace` for a non-empty `old`: the first argument counts the
characters still covered by the match that was just replaced. -/
def replaceFrom (old new : List Char) : Nat → List Char → List Char
  | _, [] => []
  | k + 1, _ :: cs => replaceFrom old new k cs
  | 0, c :: cs =>
    if old.isPrefixOf (c :: cs) then new ++ replaceFrom old new (old.length - 1) cs
    else c :: replaceFrom old new 0 cs

/-- The `strings.ReplaceAll(s, old, new)` of the standard library: every non-overlapping
instance of `old` is replaced by `new`; an empty `old` matches before every code point and at
the end of the string. -/
def ReplaceAll (s old new : String) : String :=
  if old.data = [] then
    ⟨(s.data.flatMap (fun c => new.data ++ [c])) ++ new.data⟩
  else ⟨replaceFrom old.data new.data 0 s.data⟩

/-- The digit loop of `strconv` (`formatBits`, base 10): the first argument bounds the number
of iterations, the last one is the text produced so far. -/
def formatBits : Nat → Nat → List Char → List Char
  | 0, u, a => Char.ofNat (48 + u) :: a
  | f + 1, u, a =>
    if 10 ≤ u then formatBits f (u / 10) (Char.ofNat (48 + u % 10) :: a)
    else Char.ofNat (48 + u) :: a

/-- Decimal text of a natural number. -/
def formatNat (u : Nat) : List Char := formatBits u u []

/-- The verb `%d` of `fmt.Sprintf` applied to an `int`. -/
def FormatInt (i : Int) : String :=
  if i < 0 then ⟨'-' :: formatNat i.natAbs⟩ else ⟨formatNat i.natAbs⟩

/-- Backward scan of `filepath.Ext`: the first argument is the part of the path not yet
visited, last character first; the second the suffix already visited. -/
def extScan : List Char → List Char → List Char
  | [], _ => []
  | c :: before, after =>
    if c = '/' then []
    else if c = '.' then '.' :: after
    else extScan before (c :: after)

/-- The `filepath.Ext(path)` of the standard library (Unix separator): the suffix beginning at
the final dot of the final element of `path`, empty when there is no such dot. -/
def Ext (path : String) : String := ⟨extScan path.data.reverse []⟩

end Go

namespace Go.base64

/-- The alphabet of `base64.StdEncoding` (RFC 4648). -/
def encodeStd : String := "ABCDEFGHIJKLMNOPQRSTUVWXYZabcdefghijklmnopqrstuvwxyz0123456789+/"

/-- The table `enc.encode` of `StdEncoding`. -/
def encode (i : Nat) : Char := encodeStd.data.getD i 'A'

/-- The table `enc.decodeMap` of `StdEncoding`; `none` stands for the entry `0xff`. -/
def decodeMap (c : Char) : Option Nat :=
  if encodeStd.data.indexOf c < 64 then some (encodeStd.data.indexOf c) else none

/-- The `StdEncoding.Encode` of `encoding/base64`: three bytes give four characters, a final
group of one or two bytes is padded with `=`. -/
def Encode : List Nat → List Char
  | [] => []
  | [a] =>
    let val := a <<< 16
    [encode (val >>> 18 &&& 0x3F), encode (val >>> 12 &&& 0x3F), '=', '=']
  | [a, b] =>
    let val := a <<< 16 ||| b <<< 8
    [encode (val >>> 18 &&& 0x3F), encode (val >>> 12 &&& 0x3F), encode (val >>> 6 &&& 0x3F), '=']
  | a :: b :: c :: rest =>
    let val := a <<< 16 ||| b <<< 8 ||| c
    encode (val >>> 18 &&& 0x3F) :: encode (val >>> 12 &&& 0x3F) ::
      encode (val >>> 6 &&& 0x3F) :: encode (val &&& 0x3F) :: Encode rest

/-- The `StdEncoding.EncodeToString` of `encoding/base64`. -/
def EncodeToString (src : List Nat) : String := ⟨Encode src⟩

/-- End of `decodeQuantum`: the `dlen` six-bit values in `dbuf` are packed into
`val := dbuf[0]<<18 | dbuf[1]<<12 | dbuf[2]<<6 | dbuf[3]` and the first `dlen - 1` bytes of
`val` are written to the destination. -/
def assemble (dbuf : List Nat) : List Nat :=
  let val := dbuf.getD 0 0 <<< 18 ||| dbuf.getD 1 0 <<< 12 ||| dbuf.getD 2 0 <<< 6 ||| dbuf.getD 3 0
  [(val >>> 16) % 256, (val >>> 8) % 256, (val >>> 0) % 256].take (dbuf.length - 1)

/-- The loops `for si < len(src) && (src[si] == '\n' || src[si] == '\r')` of `decodeQuantum`. -/
def skipNewlines (src : List Char) : List Char :=
  src.dropWhile (fun c => c = '\n' ∨ c = '\r')

/-- After the padding of a quantum: newlines are skipped and anything left is trailing garbage,
in which case `Decode` returns an error. -/
def afterPadding (dbuf : List Nat) (src : List Char) : Except GoError (List Nat) :=
  if skipNewlines src = [] then .ok (assemble dbuf) else .error .corruptInput

/-- The `StdEncoding.Decode` of `encoding/base64` (padding `=`, not strict), as the repetition of
`decodeQuantum` over the input; the word-at-a-time fast paths of the library compute the same
result. The first argument holds the six-bit values read so far in the current quantum (its
length is the `j` of `decodeQuantum`). -/
def decodeFrom : List Nat → List Char → Except GoError (List Nat)
  | dbuf, [] =>
    -- input exhausted: fine between quanta, an error inside one
    if dbuf.length = 0 then .ok [] else .error .corruptInput
  | dbuf, c :: src =>
    match decodeMap c with
    | some out =>
      if dbuf.length = 3 then
        match decodeFrom [] src with
        | .ok more => .ok (assemble (dbuf ++ [out]) ++ more)
        | .error err => .error err
      else decodeFrom (dbuf ++ [out]) src
    | none =>
      if c = '\n' ∨ c = '\r' then decodeFrom dbuf src
      else if c ≠ '=' then .error .corruptInput
      else
        match dbuf.length with
        | 0 => .error .corruptInput
        | 1 => .error .corruptInput
        | 2 =>
          -- "==" is expected, the first "=" is already consumed
          match skipNewlines src with
          | [] => .error .corruptInput
          | c2 :: src2 => if c2 ≠ '=' then .error .corruptInput else afterPadding dbuf src2
        | _ => afterPadding dbuf src

/-- The `StdEncoding.DecodeString` of `encoding/base64`. -/
def DecodeString (s : String) : Except GoError (List Nat) := decodeFrom [] s.data

end Go.base64

/-! ## Operating system -/

/-- The file system as the two programs see it: the contents of every path, and for every path
the error (if any) with which the operating system answers `os.Create`, `Write` and `Sync`.
A failing `Write` reports how many bytes it wrote before the error. -/
structure FileSystem where
  files : String → Option (List Nat)
  createFails : String → Option GoError
  writeFails : String → Option (Nat × GoError)
  syncFails : String → Option GoError

namespace FileSystem

/-- The file at `path` now holds `content`. -/
def put (fs : FileSystem) (path : String) (content : List Nat) : FileSystem :=
  { fs with files := fun p => if p = path then some content else fs.files p }

/-- Creating, writing and syncing the file at `path` all succeed. -/
def Writable (fs : FileSystem) (path : String) : Prop :=
  fs.createFails path = none ∧ fs.writeFails path = none ∧ fs.syncFails path = none

end FileSystem

/-- What `os.Stat` reports about a file. -/
structure FileInfo where
  Name : String
  Size : Int

/-- An open file (what a non-nil `*os.File` points to): the name it was opened with, the answer
of `Stat`, and the answer of reading it to the end. -/
structure OsFile where
  name : String
  stat : Except GoError FileInfo
  data : Except GoError (List Nat)

/-- The method `(*os.File).Stat`; a nil receiver yields `os.ErrInvalid`. -/
def OsFile.Stat : Option OsFile → Except GoError FileInfo
  | none => .error .errInvalid
  | some f => f.stat

/-! ## JSON documents and HTTP responses -/

/-- A value that `encoding/json` stores in an `interface{}`. -/
inductive JsonValue where
  | null
  | bool (b : Bool)
  | number (literal : String)
  | string (s : String)
  | array (items : List JsonValue)
  | object (members : List (String × JsonValue))

/-- The type `ResponseBody` of both programs; a `map[string]interface{}` is an association
list. -/
structure ResponseBody where
  Created : Int
  Data : List (List (String × JsonValue))

/-- The response of `client.Do`: status code and status line, the error of
`io.ReadAll(response.Body)` if any, and what `json.Unmarshal(bodyBytes, &responseObject)`
yields on the body. -/
structure Response where
  StatusCode : Int
  Status : String
  readAll : Option GoError
  unmarshal : Except GoError ResponseBody

/-- How a run of `main` ends. -/
inductive Exit where
  /-- The function `main` returned. -/
  | returned
  /-- A call of `log.Fatal` ended the process. -/
  | fatal
  /-- A run-time panic ended the process. -/
  | panicked
  deriving DecidableEq, Repr

/-- Observable steps of `main`. -/
inductive Event where
  /-- A `log.Fatal(err)`. -/
  | logFatal (err : GoError)
  /-- The `log.Printf("Request failed with response code ...")`. -/
  | logRequestFailed (code : Int) (status : String)
  /-- The `log.Printf("Error al decodificar imagen %s | %s", filename, err.Error())`. -/
  | logImageError (filename : String) (err : GoError)
  /-- A call `DecodeBase64AndSaveImg(b64Img, output)`. -/
  | decodeCall (b64Img output : String)
  deriving DecidableEq, Repr

/-- State of a run: how it ended (so far), the file system, and the trace. -/
structure Run where
  exit : Exit
  fs : FileSystem
  trace : List Event

/-! ## The struct validator (`go-playground/validator`) -/

namespace Go.validator

/-- The validation tags used by the two programs, as the validator parses them from the
struct tag; `oneof` keeps its parameter as written. -/
inductive Tag where
  | required
  | omitempty
  | max (param : Int)
  | min (param : Int)
  | oneof (param : String)
  deriving DecidableEq, Repr

/-- A field value as the validator sees it through reflection. -/
inductive Value where
  | string (s : String)
  | int (i : Int)
  /-- A `*os.File`: nil, or a pointer to a struct without exported fields. -/
  | filePtr (f : Option OsFile)

/-- One struct field: its name, its parsed `validate` tag and its value. -/
structure Field where
  name : String
  tags : List Tag
  value : Value

/-- One entry of the `ValidationErrors` that `validate.Struct` returns. -/
structure FieldError where
  field : String
  tag : Tag
  deriving DecidableEq, Repr

/-- White space in the sense of the pattern with which the validator splits a `oneof`
parameter. -/
def isSpace (c : Char) : Bool :=
  c = ' ' ∨ c = '\t' ∨ c = '\n' ∨ c = '\r' ∨ c = '\x0c'

/-- The values of a `oneof` parameter: its maximal runs of non-space characters
(`parseOneOfParam2`). The first argument is the run being read. -/
def oneofVals : List Char → List Char → List String
  | cur, [] => if cur = [] then [] else [⟨cur⟩]
  | cur, c :: cs =>
    if isSpace c then (if cur = [] then oneofVals [] cs else ⟨cur⟩ :: oneofVals [] cs)
    else oneofVals (cur ++ [c]) cs

/-- The validator's `hasValue` for strings and integers: the value is not the zero value. -/
def hasValue : Value → Bool
  | .string s => s ≠ ""
  | .int i => i ≠ 0
  | .filePtr f => f.isSome

/-- The validation function of one tag (`hasValue`, `isLte`, `isGte`, `isOneOf`); a string is
measured in runes. -/
def check : Tag → Value → Bool
  | .required, v => hasValue v
  | .omitempty, _ => true
  | .max p, .string s => (s.length : Int) ≤ p
  | .max p, .int i => i ≤ p
  | .min p, .string s => p ≤ (s.length : Int)
  | .min p, .int i => p ≤ i
  | .oneof param, .string s => (oneofVals [] param.data).contains s
  | .oneof param, .int i => (oneofVals [] param.data).contains (Go.FormatInt i)
  | _, .filePtr _ => true

/-- The tag loop of `traverseField` for a string or integer field: tags run in order,
`omitempty` ends the loop without error when the field has no value, the first failing tag is
reported. -/
def runTags : List Tag → Value → Option Tag
  | [], _ => none
  | .omitempty :: ts, v => if hasValue v then runTags ts v else none
  | t :: ts, v => if check t v then runTags ts v else some t

/-- The function `traverseField`. A nil pointer is in error unless the field has no tag or its
first tag is `omitempty`; a non-nil `*os.File` leads to a struct without exported fields, in
which nothing is validated. -/
def traverseField (f : Field) : Option Tag :=
  match f.value with
  | .filePtr none =>
    match f.tags with
    | [] => none
    | .omitempty :: _ => none
    | t :: _ => some t
  | .filePtr (some _) => none
  | v => runTags f.tags v

/-- The `validate.Struct`: every field is traversed, the errors are collected in field order;
the empty list is the `nil` error. -/
def Struct (fields : List Field) : List FieldError :=
  fields.filterMap (fun f => (traverseField f).map (fun t => ⟨f.name, t⟩))

end Go.validator

/-! ## Program `dall-e/generate-image-from-text` -/

namespace GenerateImageFromText

def INPUT_PROMPT : String := "Lionel Messi wearing a Boca Juniors jersey"
def NUMBER_OF_RESULTS : Int := 3
def SIZE : String := "512x512"
def RESPONSE_FORMAT : String := "b64_json"
def OUTPUT_DIR : String := "./output/"

/-- The type `RequestBody` (lines 25-30). -/
structure RequestBody where
  Prompt : String
  NumberOfResults : Int
  Size : String
  ResponseFormat : String

/-- The fields of `RequestBody` with their `validate` tags. -/
def RequestBody.fields (r : RequestBody) : List Go.validator.Field :=
  [ ⟨"Prompt", [.required, .max 1000], .string r.Prompt⟩,
    ⟨"NumberOfResults", [.omitempty, .min 1, .max 10], .int r.NumberOfResults⟩,
    ⟨"Size", [.omitempty, .oneof "256x256 512x512 1024x1024"], .string r.Size⟩,
    ⟨"ResponseFormat", [.omitempty, .oneof "url b64_json"], .string r.ResponseFormat⟩ ]

/-- The call `validate.Struct(reqBody)` of `main` (line 58). -/
def validateStruct (r : RequestBody) : List Go.validator.FieldError :=
  Go.validator.Struct r.fields

/-- The function `GenerateFilename` (lines 114-118). -/
def GenerateFilename (seed : String) (index : Int) : String :=
  let filename := Go.ReplaceAll (Go.Trim seed " ") " " "_"
  filename ++ "_" ++ Go.FormatInt index ++ ".png"

/-- The function `DecodeBase64AndSaveImg` (lines 120-140): the new file system and the
returned error. -/
def DecodeBase64AndSaveImg (fs : FileSystem) (b64Img output : String) :
    FileSystem × Option GoError :=
  match Go.base64.DecodeString b64Img with
  | .error err => (fs, some err)
  | .ok dec =>
    match fs.createFails output with
    | some err => (fs, some err)
    | none =>
      -- os.Create truncates the file
      match fs.writeFails output with
      | some (n, err) => (fs.put output (dec.take n), some err)
      | none =>
        match fs.syncFails output with
        | some err => (fs.put output dec, some err)
        | none => (fs.put output dec, none)

/-- The loop over `responseObject.Data` of `main` (lines 101-111). The arguments are the
entries still to visit, the index `i` of the first of them, the variable `err`, the file system
and the trace. The type assertion `img["b64_json"].(string)` panics unless the entry holds a
string under that key. -/
def mainLoop : List (List (String × JsonValue)) → Nat → Option GoError → FileSystem →
    List Event → Run
  | [], _, _, fs, tr => ⟨.returned, fs, tr⟩
  | img :: rest, i, err, fs, tr =>
    let filename := GenerateFilename INPUT_PROMPT ((i : Int) + 1)
    let path := OUTPUT_DIR ++ filename
    if RESPONSE_FORMAT = "b64_json" then
      match img.lookup "b64_json" with
      | some (.string b64Img) =>
        let r := DecodeBase64AndSaveImg fs b64Img path
        match r.2 with
        | some e =>
          mainLoop rest (i + 1) (some e) r.1
            (tr ++ [.decodeCall b64Img path, .logImageError filename e])
        | none => mainLoop rest (i + 1) none r.1 (tr ++ [.decodeCall b64Img path])
      | _ => ⟨.panicked, fs, tr⟩
    else
      match err with
      | some e => mainLoop rest (i + 1) err fs (tr ++ [.logImageError filename e])
      | none => mainLoop rest (i + 1) err fs tr

/-- The part of `main` that follows `client.Do` (lines 83-111): read the body, log and return
on a status code above 299, otherwise unmarshal the body and run the loop. The error body that
is parsed for the log message only changes the text of that message. -/
def mainResponse (fs : FileSystem) (response : Response) : Run :=
  match response.readAll with
  | some err => ⟨.fatal, fs, [.logFatal err]⟩
  | none =>
    if response.StatusCode > 299 then
      ⟨.returned, fs, [.logRequestFailed response.StatusCode response.Status]⟩
    else
      match response.unmarshal with
      | .error err => ⟨.fatal, fs, [.logFatal err]⟩
      | .ok responseObject => mainLoop responseObject.Data 0 none fs []

end GenerateImageFromText

/-! ## Program `dall-e/edit-image` -/

namespace EditImage

def INPUT_PROMPT : String :=
  "write the name 'John' and the number 9 on the jersey as a soccer jersey using Times New Roman Font."
def NUMBER_OF_RESULTS : Int := 3
def SIZE : String := "512x512"
def RESPONSE_FORMAT : String := "b64_json"
def OUTPUT_DIR : String := "./output/"
def IMAGE : String := "./images/boca_blanca.png"
def MASK : String := "./images/mask_boca_blanca.png"

/-- The type `RequestBody` (lines 29-36). -/
structure RequestBody where
  Image : Option OsFile
  Mask : Option OsFile
  Prompt : String
  NumberOfResults : Int
  Size : String
  ResponseFormat : String

/-- The fields of `RequestBody` with their `validate` tags. -/
def RequestBody.fields (r : RequestBody) : List Go.validator.Field :=
  [ ⟨"Image", [.required], .filePtr r.Image⟩,
    ⟨"Mask", [.omitempty], .filePtr r.Mask⟩,
    ⟨"Prompt", [.required, .max 1000], .string r.Prompt⟩,
    ⟨"NumberOfResults", [.omitempty, .min 1, .max 10], .int r.NumberOfResults⟩,
    ⟨"Size", [.omitempty, .oneof "256x256 512x512 1024x1024"], .string r.Size⟩,
    ⟨"ResponseFormat", [.omitempty, .oneof "url b64_json"], .string r.ResponseFormat⟩ ]

/-- The call `validate.Struct(reqBody)` of `main` (line 65). -/
def validateStruct (r : RequestBody) : List Go.validator.FieldError :=
  Go.validator.Struct r.fields

/-- An `io.Reader` stored in the map of `ParseStructRequestBody`: a `*os.File` (possibly the
nil pointer) or a `*strings.Reader` over a string. -/
inductive Reader where
  | file (f : Option OsFile)
  | stringsReader (s : String)

/-- The function `ParseStructRequestBody` (lines 135-144); the map is listed in the order of
the source. -/
def ParseStructRequestBody (reqBody : RequestBody) : List (String × Reader) :=
  [ ("image", .file reqBody.Image),
    ("mask", .file reqBody.Mask),
    ("prompt", .stringsReader reqBody.Prompt),
    ("n", .stringsReader (Go.FormatInt reqBody.NumberOfResults)),
    ("size", .stringsReader reqBody.Size),
    ("response_format", .stringsReader reqBody.ResponseFormat) ]

/-- What `io.Copy` moved into one part of the form. -/
inductive PartData where
  | bytes (b : List Nat)
  | text (s : String)

/-- One part of the multipart body: field name, file name (for a file part) and content. -/
structure Part where
  fieldname : String
  filename : Option String
  content : PartData

/-- Result of `CreateFormData`: the parts written to the buffer (the content type only adds
the boundary), an error, or a run-time panic. -/
inductive FormResult where
  | ok (parts : List Part)
  | error (err : GoError)
  | panic

/-- The function `CreateFormData` (lines 147-174). The first argument lists the entries of
`values` in the order in which `range` visits them, the second the parts written so far.
For a `*os.File` entry the file name is `x.Name()`, which dereferences the pointer: on the nil
pointer this is a run-time panic. Writing to the `bytes.Buffer` does not fail. -/
def CreateFormData : List (String × Reader) → List Part → FormResult
  | [], parts => .ok parts
  | (key, r) :: rest, parts =>
    match r with
    | .file none => .panic
    | .file (some x) =>
      match x.data with
      | .error err => .error err
      | .ok b => CreateFormData rest (parts ++ [⟨key, some x.name, .bytes b⟩])
    | .stringsReader s => CreateFormData rest (parts ++ [⟨key, none, .text s⟩])

/-- The function `GenerateFilename` (lines 176-180). -/
def GenerateFilename (seed : String) (index : Int) : String :=
  let filename := Go.ReplaceAll (Go.Trim seed " ") " " "_"
  filename ++ "_" ++ Go.FormatInt index ++ ".png"

/-- The function `DecodeBase64AndSaveImg` (lines 182-202): the new file system and the
returned error. -/
def DecodeBase64AndSaveImg (fs : FileSystem) (b64Img output : String) :
    FileSystem × Option GoError :=
  match Go.base64.DecodeString b64Img with
  | .error err => (fs, some err)
  | .ok dec =>
    match fs.createFails output with
    | some err => (fs, some err)
    | none =>
      -- os.Create truncates the file
      match fs.writeFails output with
      | some (n, err) => (fs.put output (dec.take n), some err)
      | none =>
        match fs.syncFails output with
        | some err => (fs.put output dec, some err)
        | none => (fs.put output dec, none)

/-- The function `ValidateImage` (lines 212-227). -/
def ValidateImage (img : Option OsFile) : Option GoError :=
  match OsFile.Stat img with
  | .error err => some err
  | .ok fileInfo =>
    if Go.Ext fileInfo.Name ≠ ".png" then
      some (.new "The image extension must be PNG")
    else if fileInfo.Size > 4000000 then
      some (.new "The size of the image must not exceed 4MB")
    else none

/-- The loop over `responseObject.Data` of `main` (lines 122-132). The arguments are the
entries still to visit, the index `i` of the first of them, the variable `err`, the file system
and the trace. The type assertion `img["b64_json"].(string)` panics unless the entry holds a
string under that key. -/
def mainLoop : List (List (String × JsonValue)) → Nat → Option GoError → FileSystem →
    List Event → Run
  | [], _, _, fs, tr => ⟨.returned, fs, tr⟩
  | img :: rest, i, err, fs, tr =>
    let filename := GenerateFilename INPUT_PROMPT ((i : Int) + 1)
    let path := OUTPUT_DIR ++ filename
    if RESPONSE_FORMAT = "b64_json" then
      match img.lookup "b64_json" with
      | some (.string b64Img) =>
        let r := DecodeBase64AndSaveImg fs b64Img path
        match r.2 with
        | some e =>
          mainLoop rest (i + 1) (some e) r.1
            (tr ++ [.decodeCall b64Img path, .logImageError filename e])
        | none => mainLoop rest (i + 1) none r.1 (tr ++ [.decodeCall b64Img path])
      | _ => ⟨.panicked, fs, tr⟩
    else
      match err with
      | some e => mainLoop rest (i + 1) err fs (tr ++ [.logImageError filename e])
      | none => mainLoop rest (i + 1) err fs tr

/-- The part of `main` that follows `client.Do` (lines 104-132): read the body, log and return
on a status code above 299, otherwise unmarshal the body and run the loop. The error body that
is parsed for the log message only changes the text of that message. -/
def mainResponse (fs : FileSystem) (response : Response) : Run :=
  match response.readAll with
  | some err => ⟨.fatal, fs, [.logFatal err]⟩
  | none =>
    if response.StatusCode > 299 then
      ⟨.returned, fs, [.logRequestFailed response.StatusCode response.Status]⟩
    else
      match response.unmarshal with
      | .error err => ⟨.fatal, fs, [.logFatal err]⟩
      | .ok responseObject => mainLoop responseObject.Data 0 none fs []

end EditImage

/-! ## Specification-side notions -/

namespace Spec

/-- Replace a space by an underscore, keep any other character. -/
def underscore (c : Char) : Char := if c = ' ' then '_' else c

/-- The text with each space character replaced by an underscore. -/
def spacesToUnderscores (s : String) : String := ⟨s.data.map underscore⟩

/-- The text without its leading and trailing space characters. -/
def stripSpaces (s : String) : String :=
  ⟨((s.data.dropWhile (fun c => c = ' ')).reverse.dropWhile (fun c => c = ' ')).reverse⟩

/-- The decoded payload of a result entry: the bytes that the string under `b64_json` stands
for, if the entry holds a string there and the string is valid base64. -/
def payload (img : List (String × JsonValue)) : Option (List Nat) :=
  match img.lookup "b64_json" with
  | some (.string s) =>
    match Go.base64.DecodeString s with
    | .ok dec => some dec
    | .error _ => none
  | _ => none

/-- The string that a result entry holds under `b64_json` (empty when there is none). -/
def b64Json (img : List (String × JsonValue)) : String :=
  match img.lookup "b64_json" with
  | some (.string s) => s
  | _ => ""

end Spec

/-! ## Concrete inputs -/

namespace Example

/-- An empty disk on which every operation succeeds. -/
def disk : FileSystem :=
  ⟨fun _ => none, fun _ => none, fun _ => none, fun _ => none⟩

/-- An empty disk on which no file can be created (the output directory does not exist). -/
def noOutputDir : FileSystem :=
  ⟨fun _ => none, fun _ => some (.sys "no such file or directory"), fun _ => none,
    fun _ => none⟩

/-- An empty disk on which a file can be created only under a path of at most 100
characters. -/
def shortPathsOnly : FileSystem :=
  ⟨fun _ => none, fun p => if 100 < p.length then some (.sys "file name too long") else none,
    fun _ => none, fun _ => none⟩

/-- A small open PNG file. -/
def png : OsFile :=
  ⟨"./images/boca_blanca.png", .ok ⟨"boca_blanca.png", 1024⟩, .ok [137, 80, 78, 71]⟩

/-- The request that `main` of the text-to-image program builds. -/
def generateRequest : GenerateImageFromText.RequestBody :=
  ⟨GenerateImageFromText.INPUT_PROMPT, GenerateImageFromText.NUMBER_OF_RESULTS,
    GenerateImageFromText.SIZE, GenerateImageFromText.RESPONSE_FORMAT⟩

/-- An edit request with an image and without a mask. -/
def editRequest : EditImage.RequestBody :=
  ⟨some png, none, EditImage.INPUT_PROMPT, EditImage.NUMBER_OF_RESULTS, EditImage.SIZE,
    EditImage.RESPONSE_FORMAT⟩

/-- A result entry whose payload is the base64 text of the one byte 65. -/
def entryA : List (String × JsonValue) := [("b64_json", .string "QQ==")]

/-- A result entry whose payload is the base64 text of the one byte 66. -/
def entryB : List (String × JsonValue) := [("b64_json", .string "Qg==")]

/-- A result entry that carries a URL and nothing under `b64_json`. -/
def entryUrl : List (String × JsonValue) := [("url", .string "https://example.org/1.png")]

/-- A result entry whose `b64_json` member is a number. -/
def entryNumber : List (String × JsonValue) := [("b64_json", .number "5")]

/-- A result entry whose payload is not valid base64. -/
def entryCorrupt : List (String × JsonValue) := [("b64_json", .string "!")]

end Example

/-- The calls of `DecodeBase64AndSaveImg` that a loop makes when it visits every entry of a
list, the first entry having index `i` and the entry of index `k` going to `path k`. -/
def Spec.calls (path : Nat → String) : Nat → List (List (String × JsonValue)) → List Event
  | _, [] => []
  | i, img :: rest => .decodeCall (Spec.b64Json img) (path i) :: Spec.calls path (i + 1) rest

/-- The `path` that the loop of the text-to-image program computes for the entry at 0-based
position `i`. -/
def GenerateImageFromText.outputPath (i : Nat) : String :=
  GenerateImageFromText.OUTPUT_DIR ++
    GenerateImageFromText.GenerateFilename GenerateImageFromText.INPUT_PROMPT ((i : Int) + 1)

/-- The `path` that the loop of the edit program computes for the entry at 0-based position
`i`. -/
def EditImage.outputPath (i : Nat) : String :=
  EditImage.OUTPUT_DIR ++ EditImage.GenerateFilename EditImage.INPUT_PROMPT ((i : Int) + 1)

/-! ## Lemmas on the library models -/

namespace Go

theorem ofNat_eq_digitChar (u : Nat) (h : u < 10) : Char.ofNat (48 + u) = Nat.digitChar u := by
  interval_cases u <;> rfl

theorem formatBits_eq_toDigitsCore (f : Nat) :
    ∀ u a, u ≤ f → formatBits f u a = Nat.toDigitsCore 10 (f + 1) u a := by
  induction f with
  | zero =>
    intro u a hu
    have : u = 0 := by omega
    subst this
    rfl
  | succ f ih =>
    intro u a hu
    by_cases h10 : 10 ≤ u
    · have hne : ¬ u / 10 = 0 := by omega
      have hmod : u % 10 < 10 := Nat.mod_lt _ (by decide)
      rw [formatBits, if_pos h10, Nat.toDigitsCore]
      simp only [hne, if_false]
      rw [ih (u / 10) _ (by omega), ofNat_eq_digitChar _ hmod]
    · have hz : u / 10 = 0 := by omega
      have hm : u % 10 = u := by omega
      rw [formatBits, if_neg h10, Nat.toDigitsCore]
      simp only [hz, if_true, hm]
      rw [ofNat_eq_digitChar _ (by omega)]

theorem formatNat_eq_toDigits (u : Nat) : formatNat u = Nat.toDigits 10 u :=
  formatBits_eq_toDigitsCore u u [] (le_refl u)

theorem FormatInt_eq_toString (i : Int) : FormatInt i = toString i := by
  cases i with
  | ofNat m =>
    have : ¬ ((Int.ofNat m) < 0) := by simp
    simp only [FormatInt, this, if_false, Int.natAbs_ofNat, formatNat_eq_toDigits]
    rfl
  | negSucc m =>
    have : (Int.negSucc m) < 0 := Int.negSucc_lt_zero m
    simp only [FormatInt, this, if_true, formatNat_eq_toDigits]
    rfl


theorem digitVal_ofNat (u : Nat) (h : u < 10) : (Char.ofNat (48 + u)).toNat - 48 = u := by
  interval_cases u <;> rfl

theorem foldl_formatBits (f : Nat) :
    ∀ u a, u ≤ f →
      (formatBits f u a).foldl (fun x c => 10 * x + (c.toNat - 48)) 0 =
        a.foldl (fun x c => 10 * x + (c.toNat - 48)) u := by
  induction f with
  | zero =>
    intro u a hu
    have : u = 0 := by omega
    subst this
    rfl
  | succ f ih =>
    intro u a hu
    by_cases h10 : 10 ≤ u
    · rw [formatBits, if_pos h10, ih (u / 10) _ (by omega)]
      simp only [List.foldl_cons]
      rw [digitVal_ofNat _ (Nat.mod_lt _ (by decide))]
      congr 1
      omega
    · rw [formatBits, if_neg h10]
      simp only [List.foldl_cons]
      rw [digitVal_ofNat _ (by omega)]
      congr 1
      omega

theorem formatNat_injective : Function.Injective formatNat := by
  intro u v h
  have hu := foldl_formatBits u u [] (le_refl u)
  have hv := foldl_formatBits v v [] (le_refl v)
  unfold formatNat at h
  rw [h] at hu
  simpa using hu.symm.trans hv

theorem replaceFrom_space (l : List Char) :
    replaceFrom [' '] ['_'] 0 l = l.map Spec.underscore := by
  induction l with
  | nil => rfl
  | cons c cs ih =>
    by_cases hc : c = ' '
    · subst hc
      simp [replaceFrom, ih, Spec.underscore]
    · have : (' ' == c) = false := by
        simp only [beq_eq_false_iff_ne, ne_eq]
        exact fun h => hc h.symm
      simp [replaceFrom, ih, Spec.underscore, hc, List.isPrefixOf, this]

theorem ReplaceAll_space (s : String) : ReplaceAll s " " "_" = Spec.spacesToUnderscores s := by
  simp only [ReplaceAll, Spec.spacesToUnderscores]
  rw [if_neg (by decide)]
  exact congrArg String.mk (replaceFrom_space s.data)

theorem Trim_space (s : String) : Trim s " " = Spec.stripSpaces s := by
  have h : (fun c : Char => (" ".data.contains c)) = (fun c : Char => decide (c = ' ')) := by
    funext c
    simp [List.contains]
  simp only [Trim, Spec.stripSpaces, h]

end Go


namespace Go.base64

theorem decodeMap_encode (i : Nat) (h : i < 64) : decodeMap (encode i) = some i := by
  interval_cases i <;> rfl

theorem decodeMap_pad : decodeMap '=' = none := by rfl

theorem and_63 (x : Nat) : x &&& 0x3F = x % 64 := Nat.and_pow_two_sub_one_eq_mod x 6

theorem or3 (a b c : Nat) (hb : b < 256) (hc : c < 256) :
    a <<< 16 ||| b <<< 8 ||| c = a * 65536 + b * 256 + c := by
  have h1 : a <<< 16 ||| b <<< 8 = 2 ^ 16 * a + b * 256 := by
    rw [Nat.shiftLeft_eq, Nat.shiftLeft_eq, Nat.mul_comm a (2 ^ 16)]
    exact (Nat.mul_add_lt_is_or (by omega) a).symm
  have h2 : 2 ^ 16 * a + b * 256 = 2 ^ 8 * (a * 256 + b) := by omega
  rw [h1, h2, ← Nat.mul_add_lt_is_or (by omega : c < 2 ^ 8)]
  omega

theorem or4 (s0 s1 s2 s3 : Nat) (h1 : s1 < 64) (h2 : s2 < 64) (h3 : s3 < 64) :
    s0 <<< 18 ||| s1 <<< 12 ||| s2 <<< 6 ||| s3 = s0 * 262144 + s1 * 4096 + s2 * 64 + s3 := by
  have e1 : s0 <<< 18 ||| s1 <<< 12 = 2 ^ 18 * s0 + s1 * 4096 := by
    rw [Nat.shiftLeft_eq, Nat.shiftLeft_eq, Nat.mul_comm s0 (2 ^ 18)]
    exact (Nat.mul_add_lt_is_or (by omega) s0).symm
  have e2 : 2 ^ 18 * s0 + s1 * 4096 = 2 ^ 12 * (s0 * 64 + s1) := by omega
  have e3 : 2 ^ 12 * (s0 * 64 + s1) ||| s2 <<< 6 = 2 ^ 12 * (s0 * 64 + s1) + s2 * 64 := by
    rw [Nat.shiftLeft_eq]
    exact (Nat.mul_add_lt_is_or (by omega) _).symm
  have e4 : 2 ^ 12 * (s0 * 64 + s1) + s2 * 64 = 2 ^ 6 * (s0 * 4096 + s1 * 64 + s2) := by omega
  rw [e1, e2, e3, e4, ← Nat.mul_add_lt_is_or (by omega : s3 < 2 ^ 6)]
  omega


theorem decodeFrom_sextet (dbuf : List Nat) (i : Nat) (hi : i < 64) (src : List Char)
    (hlen : dbuf.length ≠ 3) :
    decodeFrom dbuf (encode i :: src) = decodeFrom (dbuf ++ [i]) src := by
  rw [decodeFrom, decodeMap_encode i hi]
  simp only [hlen, if_false]

theorem decodeFrom_fourth (dbuf : List Nat) (i : Nat) (hi : i < 64) (src : List Char)
    (more : List Nat) (hlen : dbuf.length = 3) (hmore : decodeFrom [] src = .ok more) :
    decodeFrom dbuf (encode i :: src) = .ok (assemble (dbuf ++ [i]) ++ more) := by
  rw [decodeFrom, decodeMap_encode i hi]
  simp only [hlen, if_true, hmore]

theorem assemble_four (a b c : Nat) (ha : a < 256) (hb : b < 256) (hc : c < 256) :
    assemble [(a * 65536 + b * 256 + c) / 262144 % 64, (a * 65536 + b * 256 + c) / 4096 % 64,
      (a * 65536 + b * 256 + c) / 64 % 64, (a * 65536 + b * 256 + c) % 64] = [a, b, c] := by
  simp only [assemble, List.getD_cons_zero, List.getD_cons_succ, List.length_cons,
    List.length_nil, Nat.shiftRight_eq_div_pow]
  rw [or4 _ _ _ _ (Nat.mod_lt _ (by decide)) (Nat.mod_lt _ (by decide))
    (Nat.mod_lt _ (by decide))]
  simp only [List.take, Nat.reduceAdd, Nat.reduceSub, Nat.reducePow, Nat.div_one,
    List.cons.injEq, and_true]
  refine ⟨?_, ?_, ?_⟩ <;> omega

theorem assemble_three (a b : Nat) (ha : a < 256) (hb : b < 256) :
    assemble [(a * 65536 + b * 256) / 262144 % 64, (a * 65536 + b * 256) / 4096 % 64,
      (a * 65536 + b * 256) / 64 % 64] = [a, b] := by
  simp only [assemble, List.getD_cons_zero, List.getD_cons_succ, List.length_cons,
    List.length_nil, Nat.shiftRight_eq_div_pow, List.getD_nil]
  rw [or4 _ _ _ _ (Nat.mod_lt _ (by decide)) (Nat.mod_lt _ (by decide)) (by decide)]
  simp only [List.take, Nat.reduceAdd, Nat.reduceSub, Nat.reducePow, Nat.div_one,
    List.cons.injEq, and_true]
  refine ⟨?_, ?_⟩ <;> omega

theorem assemble_two (a : Nat) (ha : a < 256) :
    assemble [(a * 65536) / 262144 % 64, (a * 65536) / 4096 % 64] = [a] := by
  simp only [assemble, List.getD_cons_zero, List.getD_cons_succ, List.length_cons,
    List.length_nil, Nat.shiftRight_eq_div_pow, List.getD_nil]
  rw [or4 _ _ _ _ (Nat.mod_lt _ (by decide)) (by decide) (by decide)]
  simp only [List.take, Nat.reduceAdd, Nat.reduceSub, Nat.reducePow, Nat.div_one,
    List.cons.injEq, and_true]
  omega

theorem decodeFrom_Encode :
    ∀ src : List Nat, (∀ x ∈ src, x < 256) → decodeFrom [] (Encode src) = .ok src
  | [], _ => rfl
  | [a], h => by
    have ha : a < 256 := h a (by simp)
    have hv : a <<< 16 = a * 65536 := by rw [Nat.shiftLeft_eq]
    simp only [Encode, hv, and_63, Nat.shiftRight_eq_div_pow]
    rw [decodeFrom_sextet _ _ (Nat.mod_lt _ (by decide)) _ (by simp),
      decodeFrom_sextet _ _ (Nat.mod_lt _ (by decide)) _ (by simp)]
    rw [decodeFrom, decodeMap_pad]
    simp only [List.nil_append, List.cons_append, List.length_cons, List.length_nil,
      skipNewlines, afterPadding]
    simp only [Nat.reducePow]
    rw [assemble_two a ha]
    rfl
  | [a, b], h => by
    have ha : a < 256 := h a (by simp)
    have hb : b < 256 := h b (by simp)
    have hv : a <<< 16 ||| b <<< 8 = a * 65536 + b * 256 := by
      have := or3 a b 0 hb (by decide)
      simpa using this
    simp only [Encode, hv, and_63, Nat.shiftRight_eq_div_pow]
    rw [decodeFrom_sextet _ _ (Nat.mod_lt _ (by decide)) _ (by simp),
      decodeFrom_sextet _ _ (Nat.mod_lt _ (by decide)) _ (by simp),
      decodeFrom_sextet _ _ (Nat.mod_lt _ (by decide)) _ (by simp)]
    rw [decodeFrom, decodeMap_pad]
    simp only [List.nil_append, List.cons_append, List.length_cons, List.length_nil,
      skipNewlines, afterPadding]
    simp only [Nat.reducePow]
    rw [assemble_three a b ha hb]
    rfl
  | a :: b :: c :: rest, h => by
    have ha : a < 256 := h a (by simp)
    have hb : b < 256 := h b (by simp)
    have hc : c < 256 := h c (by simp)
    have ih := decodeFrom_Encode rest (fun x hx => h x (by simp [hx]))
    simp only [Encode, or3 a b c hb hc, and_63, Nat.shiftRight_eq_div_pow]
    rw [decodeFrom_sextet _ _ (Nat.mod_lt _ (by decide)) _ (by simp),
      decodeFrom_sextet _ _ (Nat.mod_lt _ (by decide)) _ (by simp),
      decodeFrom_sextet _ _ (Nat.mod_lt _ (by decide)) _ (by simp),
      decodeFrom_fourth _ _ (Nat.mod_lt _ (by decide)) _ rest (by simp) ih]
    simp only [List.nil_append, List.cons_append, Nat.reducePow]
    rw [assemble_four a b c ha hb hc]
    rfl

theorem DecodeString_EncodeToString (src : List Nat) (h : ∀ x ∈ src, x < 256) :
    DecodeString (EncodeToString src) = .ok src :=
  decodeFrom_Encode src h

end Go.base64

namespace Go.validator

theorem Struct_eq_nil (fields : List Field) :
    Struct fields = [] ↔ ∀ f ∈ fields, traverseField f = none := by
  induction fields with
  | nil => simp [Struct]
  | cons f fs ih =>
    unfold Struct at ih ⊢
    cases h : traverseField f with
    | none => simp [List.filterMap_cons, h, ih]
    | some t => simp [List.filterMap_cons, h]

theorem oneofVals_size :
    oneofVals [] "256x256 512x512 1024x1024".data = ["256x256", "512x512", "1024x1024"] := by
  rfl

theorem oneofVals_format : oneofVals [] "url b64_json".data = ["url", "b64_json"] := by rfl

theorem prompt_field (name p : String) :
    traverseField ⟨name, [.required, .max 1000], .string p⟩ = none ↔
      p ≠ "" ∧ p.length ≤ 1000 := by
  by_cases h1 : p = ""
  · simp [traverseField, runTags, check, hasValue, h1]
  · by_cases h2 : p.length ≤ 1000
    · simp [traverseField, runTags, check, hasValue, h1, h2]
    · simp [traverseField, runTags, check, hasValue, h1, h2]

theorem count_field (name : String) (n : Int) :
    traverseField ⟨name, [.omitempty, .min 1, .max 10], .int n⟩ = none ↔
      n = 0 ∨ (1 ≤ n ∧ n ≤ 10) := by
  by_cases h0 : n = 0
  · simp [traverseField, runTags, hasValue, h0]
  · by_cases h1 : 1 ≤ n
    · by_cases h2 : n ≤ 10
      · simp [traverseField, runTags, check, hasValue, h0, h1, h2]
      · simp [traverseField, runTags, check, hasValue, h0, h1, h2]
    · simp [traverseField, runTags, check, hasValue, h0, h1]

theorem size_field (name s : String) :
    traverseField ⟨name, [.omitempty, .oneof "256x256 512x512 1024x1024"], .string s⟩ = none ↔
      s = "" ∨ s = "256x256" ∨ s = "512x512" ∨ s = "1024x1024" := by
  by_cases h0 : s = ""
  · simp [traverseField, runTags, hasValue, h0]
  · simp only [traverseField, runTags, check]
    rw [oneofVals_size]
    simp [hasValue, h0]
    tauto

theorem format_field (name s : String) :
    traverseField ⟨name, [.omitempty, .oneof "url b64_json"], .string s⟩ = none ↔
      s = "" ∨ s = "url" ∨ s = "b64_json" := by
  by_cases h0 : s = ""
  · simp [traverseField, runTags, hasValue, h0]
  · simp only [traverseField, runTags, check]
    rw [oneofVals_format]
    simp [hasValue, h0]
    tauto

theorem image_field (name : String) (f : Option OsFile) :
    traverseField ⟨name, [.required], .filePtr f⟩ = none ↔ f ≠ none := by
  cases f <;> simp [traverseField]

theorem mask_field (name : String) (f : Option OsFile) :
    traverseField ⟨name, [.omitempty], .filePtr f⟩ = none := by
  cases f <;> simp [traverseField]

end Go.validator

theorem GenerateImageFromText.validateStruct_eq_nil (r : GenerateImageFromText.RequestBody) :
    GenerateImageFromText.validateStruct r = [] ↔
      (r.Prompt ≠ "" ∧ r.Prompt.length ≤ 1000) ∧
      (r.NumberOfResults = 0 ∨ (1 ≤ r.NumberOfResults ∧ r.NumberOfResults ≤ 10)) ∧
      (r.Size = "" ∨ r.Size = "256x256" ∨ r.Size = "512x512" ∨ r.Size = "1024x1024") ∧
      (r.ResponseFormat = "" ∨ r.ResponseFormat = "url" ∨ r.ResponseFormat = "b64_json") := by
  rw [GenerateImageFromText.validateStruct, Go.validator.Struct_eq_nil]
  simp only [GenerateImageFromText.RequestBody.fields, List.mem_cons, List.mem_singleton,
    forall_eq_or_imp, forall_eq, List.not_mem_nil, false_implies, implies_true, and_true,
    Go.validator.prompt_field, Go.validator.count_field, Go.validator.size_field,
    Go.validator.format_field]

theorem EditImage.validateStruct_eq_nil_edit (r : EditImage.RequestBody) :
    EditImage.validateStruct r = [] ↔
      r.Image ≠ none ∧
      (r.Prompt ≠ "" ∧ r.Prompt.length ≤ 1000) ∧
      (r.NumberOfResults = 0 ∨ (1 ≤ r.NumberOfResults ∧ r.NumberOfResults ≤ 10)) ∧
      (r.Size = "" ∨ r.Size = "256x256" ∨ r.Size = "512x512" ∨ r.Size = "1024x1024") ∧
      (r.ResponseFormat = "" ∨ r.ResponseFormat = "url" ∨ r.ResponseFormat = "b64_json") := by
  rw [EditImage.validateStruct, Go.validator.Struct_eq_nil]
  simp only [EditImage.RequestBody.fields, List.mem_cons, List.mem_singleton,
    forall_eq_or_imp, forall_eq, List.not_mem_nil, false_implies, implies_true, and_true,
    Go.validator.prompt_field, Go.validator.count_field, Go.validator.size_field,
    Go.validator.format_field, Go.validator.image_field, Go.validator.mask_field, true_and]

namespace Go

theorem extScan_spec : ∀ (r acc : List Char),
    extScan r acc = [] ∨
      ∃ pre post, r = pre ++ '.' :: post ∧ extScan r acc = '.' :: (pre.reverse ++ acc)
  | [], _ => Or.inl rfl
  | c :: before, acc => by
    by_cases h1 : c = '/'
    · left
      simp [extScan, h1]
    · by_cases h2 : c = '.'
      · right
        refine ⟨[], before, by simp [h2], by simp [extScan, h2]⟩
      · rcases extScan_spec before (c :: acc) with h | ⟨pre, post, hr, he⟩
        · left
          simp [extScan, h1, h2, h]
        · right
          refine ⟨c :: pre, post, by simp [hr], ?_⟩
          simp [extScan, h1, h2, he]

/-- The extension is `".png"` exactly when the name ends in `".png"`. -/
theorem Ext_eq_png_iff (name : String) :
    Ext name = ".png" ↔ ['.', 'p', 'n', 'g'] <:+ name.data := by
  constructor
  · intro h
    have h1 : extScan name.data.reverse [] = ['.', 'p', 'n', 'g'] := congrArg String.data h
    rcases extScan_spec name.data.reverse [] with h0 | ⟨pre, post, hr, he⟩
    · rw [h0] at h1
      exact absurd h1 (by decide)
    · rw [he] at h1
      simp only [List.append_nil, List.cons.injEq, true_and] at h1
      have hpre : pre = ['g', 'n', 'p'] := by
        have := congrArg List.reverse h1
        simpa using this
      subst hpre
      have hname : name.data = post.reverse ++ ['.', 'p', 'n', 'g'] := by
        have := congrArg List.reverse hr
        simpa using this
      exact ⟨post.reverse, hname.symm⟩
  · rintro ⟨t, ht⟩
    apply String.ext
    show extScan name.data.reverse [] = ['.', 'p', 'n', 'g']
    rw [← ht]
    simp [extScan]

end Go

/-! ## Lemmas on the response loop -/

theorem FormatInt_succ (i : Nat) : Go.FormatInt ((i : Int) + 1) = ⟨Go.formatNat (i + 1)⟩ := by
  have h : ¬ ((i : Int) + 1 < 0) := by omega
  have h2 : ((i : Int) + 1).natAbs = i + 1 := by omega
  simp only [Go.FormatInt, h, if_false, h2]

theorem GenerateFilename_index_injective (dir seed : String) (i j : Nat)
    (h : dir ++ GenerateImageFromText.GenerateFilename seed ((i : Int) + 1) =
      dir ++ GenerateImageFromText.GenerateFilename seed ((j : Int) + 1)) : i = j := by
  simp only [GenerateImageFromText.GenerateFilename, FormatInt_succ] at h
  have h2 := congrArg String.data h
  simp only [String.data_append, List.append_assoc, List.append_cancel_left_eq,
    List.append_cancel_right_eq] at h2
  have := Go.formatNat_injective h2
  omega

theorem Spec.payload_isSome (img : List (String × JsonValue)) (h : (Spec.payload img).isSome) :
    ∃ b dec, img.lookup "b64_json" = some (.string b) ∧ Go.base64.DecodeString b = .ok dec ∧
      Spec.payload img = some dec ∧ Spec.b64Json img = b := by
  unfold Spec.payload at h ⊢
  unfold Spec.b64Json
  split at h
  · rename_i s hs
    cases hd : Go.base64.DecodeString s with
    | error e => simp [hd] at h
    | ok dec => exact ⟨s, dec, hs, hd, by simp [hs, hd], by simp [hs]⟩
  · simp at h

namespace GenerateImageFromText

theorem outputPath_injective (i j : Nat) (h : outputPath i = outputPath j) : i = j :=
  GenerateFilename_index_injective _ _ i j h

theorem save_ok (fs : FileSystem) (b output : String) (dec : List Nat)
    (hdec : Go.base64.DecodeString b = .ok dec) (hw : fs.Writable output) :
    DecodeBase64AndSaveImg fs b output = (fs.put output dec, none) := by
  obtain ⟨hc, hwr, hs⟩ := hw
  simp only [DecodeBase64AndSaveImg, hdec, hc, hwr, hs]

/-- An entry that holds a string is handed to `DecodeBase64AndSaveImg`; when that call returns
an error the error is logged and the loop goes on with the next entry. -/
theorem mainLoop_logs_and_continues (img : List (String × JsonValue))
    (rest : List (List (String × JsonValue))) (i : Nat) (err : Option GoError)
    (fs : FileSystem) (tr : List Event) (b : String) (e : GoError)
    (hb : img.lookup "b64_json" = some (.string b))
    (he : (DecodeBase64AndSaveImg fs b (outputPath i)).2 = some e) :
    mainLoop (img :: rest) i err fs tr =
      mainLoop rest (i + 1) (some e) (DecodeBase64AndSaveImg fs b (outputPath i)).1
        (tr ++ [.decodeCall b (outputPath i),
          .logImageError (GenerateFilename INPUT_PROMPT ((i : Int) + 1)) e]) := by
  have hf : RESPONSE_FORMAT = "b64_json" := rfl
  unfold outputPath at he ⊢
  simp only [mainLoop, hf, if_true, hb, he]

/-- An entry that holds no string under `b64_json` makes the type assertion panic: the run ends
there, with the file system and the trace as they were. -/
theorem mainLoop_panics_without_string (img : List (String × JsonValue))
    (rest : List (List (String × JsonValue))) (i : Nat) (err : Option GoError)
    (fs : FileSystem) (tr : List Event)
    (hb : ∀ b, img.lookup "b64_json" ≠ some (.string b)) :
    mainLoop (img :: rest) i err fs tr = ⟨.panicked, fs, tr⟩ := by
  have hf : RESPONSE_FORMAT = "b64_json" := rfl
  unfold mainLoop
  simp only [hf, if_true]

theorem mainLoop_all_valid : ∀ (data : List (List (String × JsonValue))) (i : Nat)
    (err : Option GoError) (fs : FileSystem) (tr : List Event),
    (∀ img ∈ data, (Spec.payload img).isSome) →
    (∀ j, j < data.length → fs.Writable (outputPath (i + j))) →
    (mainLoop data i err fs tr).exit = .returned ∧
    (mainLoop data i err fs tr).trace = tr ++ Spec.calls outputPath i data ∧
    (∀ j (h : j < data.length),
      (mainLoop data i err fs tr).fs.files (outputPath (i + j)) = Spec.payload (data.get ⟨j, h⟩)) ∧
    (∀ p, (∀ j, j < data.length → p ≠ outputPath (i + j)) →
      (mainLoop data i err fs tr).fs.files p = fs.files p)
  | [], i, err, fs, tr, _, _ => by
    refine ⟨rfl, by simp [mainLoop, Spec.calls], ?_, ?_⟩
    · intro j h
      exact absurd h (by simp)
    · intro p _
      rfl
  | img :: rest, i, err, fs, tr, hv, hw => by
    obtain ⟨b, dec, hb, hdec, hpay, hb64⟩ := Spec.payload_isSome img (hv img (by simp))
    have hw0 : fs.Writable (outputPath i) := by
      have := hw 0 (by simp)
      simpa using this
    have hf : RESPONSE_FORMAT = "b64_json" := rfl
    have hsave := save_ok fs b (outputPath i) dec hdec hw0
    have hstep : mainLoop (img :: rest) i err fs tr =
        mainLoop rest (i + 1) none (fs.put (outputPath i) dec)
          (tr ++ [.decodeCall b (outputPath i)]) := by
      unfold outputPath at hsave ⊢
      simp only [mainLoop, hf, if_true, hb, hsave]
    have hw1 : ∀ j, j < rest.length →
        (fs.put (outputPath i) dec).Writable (outputPath (i + 1 + j)) := by
      intro j hj
      have := hw (j + 1) (by simpa using hj)
      rw [show i + (j + 1) = i + 1 + j by omega] at this
      exact this
    obtain ⟨h1, h2, h3, h4⟩ := mainLoop_all_valid rest (i + 1) none (fs.put (outputPath i) dec)
      (tr ++ [.decodeCall b (outputPath i)]) (fun x hx => hv x (by simp [hx])) hw1
    rw [hstep]
    refine ⟨h1, ?_, ?_, ?_⟩
    · rw [h2]
      simp [Spec.calls, hb64]
    · intro j h
      cases j with
      | zero =>
        rw [h4 (outputPath (i + 0))]
        · simp [FileSystem.put, hpay]
        · intro j _ hp
          have := outputPath_injective _ _ hp
          omega
      | succ j =>
        have := h3 j (by simpa using h)
        rw [show i + (j + 1) = i + 1 + j by omega]
        simpa using this
    · intro p hp
      rw [h4 p]
      · have hne : p ≠ outputPath i := by
          have := hp 0 (by simp)
          simpa using this
        simp [FileSystem.put, hne]
      · intro j hj
        have := hp (j + 1) (by simpa using hj)
        rw [show i + (j + 1) = i + 1 + j by omega] at this
        exact this

end GenerateImageFromText

namespace EditImage

theorem outputPath_injective_edit (i j : Nat) (h : outputPath i = outputPath j) : i = j :=
  GenerateFilename_index_injective _ _ i j h

theorem save_ok_edit (fs : FileSystem) (b output : String) (dec : List Nat)
    (hdec : Go.base64.DecodeString b = .ok dec) (hw : fs.Writable output) :
    DecodeBase64AndSaveImg fs b output = (fs.put output dec, none) := by
  obtain ⟨hc, hwr, hs⟩ := hw
  simp only [DecodeBase64AndSaveImg, hdec, hc, hwr, hs]

/-- An entry that holds a string is handed to `DecodeBase64AndSaveImg`; when that call returns
an error the error is logged and the loop goes on with the next entry. -/
theorem mainLoop_logs_and_continues_edit (img : List (String × JsonValue))
    (rest : List (List (String × JsonValue))) (i : Nat) (err : Option GoError)
    (fs : FileSystem) (tr : List Event) (b : String) (e : GoError)
    (hb : img.lookup "b64_json" = some (.string b))
    (he : (DecodeBase64AndSaveImg fs b (outputPath i)).2 = some e) :
    mainLoop (img :: rest) i err fs tr =
      mainLoop rest (i + 1) (some e) (DecodeBase64AndSaveImg fs b (outputPath i)).1
        (tr ++ [.decodeCall b (outputPath i),
          .logImageError (GenerateFilename INPUT_PROMPT ((i : Int) + 1)) e]) := by
  have hf : RESPONSE_FORMAT = "b64_json" := rfl
  unfold outputPath at he ⊢
  simp only [mainLoop, hf, if_true, hb, he]

/-- An entry that holds no string under `b64_json` makes the type assertion panic: the run ends
there, with the file system and the trace as they were. -/
theorem mainLoop_panics_without_string_edit (img : List (String × JsonValue))
    (rest : List (List (String × JsonValue))) (i : Nat) (err : Option GoError)
    (fs : FileSystem) (tr : List Event)
    (hb : ∀ b, img.lookup "b64_json" ≠ some (.string b)) :
    mainLoop (img :: rest) i err fs tr = ⟨.panicked, fs, tr⟩ := by
  have hf : RESPONSE_FORMAT = "b64_json" := rfl
  unfold mainLoop
  simp only [hf, if_true]

theorem mainLoop_all_valid_edit : ∀ (data : List (List (String × JsonValue))) (i : Nat)
    (err : Option GoError) (fs : FileSystem) (tr : List Event),
    (∀ img ∈ data, (Spec.payload img).isSome) →
    (∀ j, j < data.length → fs.Writable (outputPath (i + j))) →
    (mainLoop data i err fs tr).exit = .returned ∧
    (mainLoop data i err fs tr).trace = tr ++ Spec.calls outputPath i data ∧
    (∀ j (h : j < data.length),
      (mainLoop data i err fs tr).fs.files (outputPath (i + j)) = Spec.payload (data.get ⟨j, h⟩)) ∧
    (∀ p, (∀ j, j < data.length → p ≠ outputPath (i + j)) →
      (mainLoop data i err fs tr).fs.files p = fs.files p)
  | [], i, err, fs, tr, _, _ => by
    refine ⟨rfl, by simp [mainLoop, Spec.calls], ?_, ?_⟩
    · intro j h
      exact absurd h (by simp)
    · intro p _
      rfl
  | img :: rest, i, err, fs, tr, hv, hw => by
    obtain ⟨b, dec, hb, hdec, hpay, hb64⟩ := Spec.payload_isSome img (hv img (by simp))
    have hw0 : fs.Writable (outputPath i) := by
      have := hw 0 (by simp)
      simpa using this
    have hf : RESPONSE_FORMAT = "b64_json" := rfl
    have hsave := save_ok_edit fs b (outputPath i) dec hdec hw0
    have hstep : mainLoop (img :: rest) i err fs tr =
        mainLoop rest (i + 1) none (fs.put (outputPath i) dec)
          (tr ++ [.decodeCall b (outputPath i)]) := by
      unfold outputPath at hsave ⊢
      simp only [mainLoop, hf, if_true, hb, hsave]
    have hw1 : ∀ j, j < rest.length →
        (fs.put (outputPath i) dec).Writable (outputPath (i + 1 + j)) := by
      intro j hj
      have := hw (j + 1) (by simpa using hj)
      rw [show i + (j + 1) = i + 1 + j by omega] at this
      exact this
    obtain ⟨h1, h2, h3, h4⟩ := mainLoop_all_valid_edit rest (i + 1) none (fs.put (outputPath i) dec)
      (tr ++ [.decodeCall b (outputPath i)]) (fun x hx => hv x (by simp [hx])) hw1
    rw [hstep]
    refine ⟨h1, ?_, ?_, ?_⟩
    · rw [h2]
      simp [Spec.calls, hb64]
    · intro j h
      cases j with
      | zero =>
        rw [h4 (outputPath (i + 0))]
        · simp [FileSystem.put, hpay]
        · intro j _ hp
          have := outputPath_injective_edit _ _ hp
          omega
      | succ j =>
        have := h3 j (by simpa using h)
        rw [show i + (j + 1) = i + 1 + j by omega]
        simpa using this
    · intro p hp
      rw [h4 p]
      · have hne : p ≠ outputPath i := by
          have := hp 0 (by simp)
          simpa using this
        simp [FileSystem.put, hne]
      · intro j hj
        have := hp (j + 1) (by simpa using hj)
        rw [show i + (j + 1) = i + 1 + j by omega] at this
        exact this

end EditImage

/-! ## Lemmas on the multipart form -/

namespace EditImage

theorem CreateFormData_nil_file : ∀ (values : List (String × Reader)) (parts : List Part),
    (∃ key, (key, Reader.file none) ∈ values) →
    CreateFormData values parts = .panic ∨ ∃ err, CreateFormData values parts = .error err
  | [], _, h => by
    obtain ⟨key, hk⟩ := h
    exact absurd hk (by simp)
  | (key, .file none) :: rest, parts, _ => Or.inl (by simp [CreateFormData])
  | (key, .file (some x)) :: rest, parts, h => by
    obtain ⟨k, hk⟩ := h
    have hrest : ∃ k, (k, Reader.file none) ∈ rest := by
      simp only [List.mem_cons, Prod.mk.injEq, Reader.file.injEq, reduceCtorEq, and_false,
        false_or] at hk
      exact ⟨k, hk⟩
    cases hd : x.data with
    | error err => exact Or.inr ⟨err, by simp [CreateFormData, hd]⟩
    | ok b =>
      simp only [CreateFormData, hd]
      exact CreateFormData_nil_file rest _ hrest
  | (key, .stringsReader s) :: rest, parts, h => by
    obtain ⟨k, hk⟩ := h
    have hrest : ∃ k, (k, Reader.file none) ∈ rest := by
      simp only [List.mem_cons, Prod.mk.injEq, reduceCtorEq, and_false, false_or] at hk
      exact ⟨k, hk⟩
    simp only [CreateFormData]
    exact CreateFormData_nil_file rest _ hrest

theorem CreateFormData_nil_file_panics : ∀ (values : List (String × Reader))
    (parts : List Part),
    (∃ key, (key, Reader.file none) ∈ values) →
    (∀ key x, (key, Reader.file (some x)) ∈ values → ∃ b, x.data = .ok b) →
    CreateFormData values parts = .panic
  | [], _, h, _ => by
    obtain ⟨key, hk⟩ := h
    exact absurd hk (by simp)
  | (key, .file none) :: rest, parts, _, _ => by simp [CreateFormData]
  | (key, .file (some x)) :: rest, parts, h, hread => by
    obtain ⟨k, hk⟩ := h
    have hrest : ∃ k, (k, Reader.file none) ∈ rest := by
      simp only [List.mem_cons, Prod.mk.injEq, Reader.file.injEq, reduceCtorEq, and_false,
        false_or] at hk
      exact ⟨k, hk⟩
    obtain ⟨b, hb⟩ := hread key x (by simp)
    simp only [CreateFormData, hb]
    exact CreateFormData_nil_file_panics rest _ hrest
      (fun k2 x2 h2 => hread k2 x2 (List.mem_cons_of_mem _ h2))
  | (key, .stringsReader s) :: rest, parts, h, hread => by
    obtain ⟨k, hk⟩ := h
    have hrest : ∃ k, (k, Reader.file none) ∈ rest := by
      simp only [List.mem_cons, Prod.mk.injEq, reduceCtorEq, and_false, false_or] at hk
      exact ⟨k, hk⟩
    simp only [CreateFormData]
    exact CreateFormData_nil_file_panics rest _ hrest
      (fun k2 x2 h2 => hread k2 x2 (List.mem_cons_of_mem _ h2))

end EditImage

/-- A payload that is not valid base64 is logged and the next entry is still written: here the
first entry is corrupt and the second one holds the byte 65. -/
theorem corrupt_payload_is_logged :
    (GenerateImageFromText.mainResponse Example.disk
      ⟨200, "200 OK", none, .ok ⟨0, [Example.entryCorrupt, Example.entryA]⟩⟩).exit
      = .returned ∧
    (GenerateImageFromText.mainResponse Example.disk
      ⟨200, "200 OK", none, .ok ⟨0, [Example.entryCorrupt, Example.entryA]⟩⟩).trace =
      [.decodeCall "!" (GenerateImageFromText.outputPath 0),
        .logImageError "Lionel_Messi_wearing_a_Boca_Juniors_jersey_1.png" .corruptInput,
        .decodeCall "QQ==" (GenerateImageFromText.outputPath 1)] ∧
    (GenerateImageFromText.mainResponse Example.disk
      ⟨200, "200 OK", none, .ok ⟨0, [Example.entryCorrupt, Example.entryA]⟩⟩).fs.files
      (GenerateImageFromText.outputPath 1) = some [65] ∧
    (EditImage.mainResponse Example.disk
      ⟨200, "200 OK", none, .ok ⟨0, [Example.entryCorrupt, Example.entryA]⟩⟩).exit
      = .returned ∧
    (EditImage.mainResponse Example.disk
      ⟨200, "200 OK", none, .ok ⟨0, [Example.entryCorrupt, Example.entryA]⟩⟩).fs.files
      (EditImage.outputPath 1) = some [65] := by
  refine ⟨by decide, by decide, by decide, by decide, by decide⟩

/-! ## The claims -/
/-- Claim C2, as stated, fails: the seed `" a"` with index 1 gives `"a_1.png"` in both programs,
while replacing each space of the seed by an underscore would give `"_a_1.png"`. -/
theorem GenerateFilename_keeps_no_outer_space :
    GenerateImageFromText.GenerateFilename " a" 1 = "a_1.png" ∧
    EditImage.GenerateFilename " a" 1 = "a_1.png" ∧
    GenerateImageFromText.GenerateFilename " a" 1 ≠
      Spec.spacesToUnderscores " a" ++ "_" ++ toString (1 : Int) ++ ".png" ∧
    EditImage.GenerateFilename " a" 1 ≠
      Spec.spacesToUnderscores " a" ++ "_" ++ toString (1 : Int) ++ ".png" := by
  refine ⟨by decide, by decide, by decide, by decide⟩

/-- Claim C2, amended: in both programs `GenerateFilename seed index` is the seed without its
leading and trailing spaces, with each remaining space replaced by an underscore, followed by
`"_"`, the decimal rendering of the index and `".png"`. -/
theorem GenerateFilename_eq (seed : String) (index : Int) :
    GenerateImageFromText.GenerateFilename seed index =
      Spec.spacesToUnderscores (Spec.stripSpaces seed) ++ "_" ++ toString index ++ ".png" ∧
    EditImage.GenerateFilename seed index =
      Spec.spacesToUnderscores (Spec.stripSpaces seed) ++ "_" ++ toString index ++ ".png" := by
  constructor
  · simp only [GenerateImageFromText.GenerateFilename, Go.Trim_space, Go.ReplaceAll_space,
      Go.FormatInt_eq_toString]
  · simp only [EditImage.GenerateFilename, Go.Trim_space, Go.ReplaceAll_space,
      Go.FormatInt_eq_toString]

/-- Claim C1: in both programs, `DecodeBase64AndSaveImg` applied to the standard base64
encoding of a byte sequence `b` and to a writable path returns no error and leaves the file at
that path with contents exactly `b`; no other file changes. -/
theorem DecodeBase64AndSaveImg_roundtrip (fs : FileSystem) (b : List Nat) (output : String)
    (hb : ∀ x ∈ b, x < 256) (hw : fs.Writable output) :
    ((GenerateImageFromText.DecodeBase64AndSaveImg fs (Go.base64.EncodeToString b) output).2
        = none ∧
      (GenerateImageFromText.DecodeBase64AndSaveImg fs (Go.base64.EncodeToString b) output).1.files
        output = some b ∧
      ∀ p, p ≠ output →
        (GenerateImageFromText.DecodeBase64AndSaveImg fs (Go.base64.EncodeToString b)
          output).1.files p = fs.files p) ∧
    ((EditImage.DecodeBase64AndSaveImg fs (Go.base64.EncodeToString b) output).2 = none ∧
      (EditImage.DecodeBase64AndSaveImg fs (Go.base64.EncodeToString b) output).1.files
        output = some b ∧
      ∀ p, p ≠ output →
        (EditImage.DecodeBase64AndSaveImg fs (Go.base64.EncodeToString b) output).1.files p
          = fs.files p) := by
  obtain ⟨hc, hwr, hs⟩ := hw
  have hdec := Go.base64.DecodeString_EncodeToString b hb
  constructor
  · simp only [GenerateImageFromText.DecodeBase64AndSaveImg, hdec, hc, hwr, hs,
      FileSystem.put, if_true, true_and]
    intro p hp
    simp only [hp, if_false]
  · simp only [EditImage.DecodeBase64AndSaveImg, hdec, hc, hwr, hs,
      FileSystem.put, if_true, true_and]
    intro p hp
    simp only [hp, if_false]

/-- Witness of claim C1: the three bytes of `"Man"` written to a fresh path. -/
theorem DecodeBase64AndSaveImg_roundtrip_witness :
    ((GenerateImageFromText.DecodeBase64AndSaveImg Example.disk
        (Go.base64.EncodeToString [77, 97, 110]) "./output/a_1.png").2 = none ∧
      (GenerateImageFromText.DecodeBase64AndSaveImg Example.disk
        (Go.base64.EncodeToString [77, 97, 110]) "./output/a_1.png").1.files "./output/a_1.png"
        = some [77, 97, 110] ∧
      ∀ p, p ≠ "./output/a_1.png" →
        (GenerateImageFromText.DecodeBase64AndSaveImg Example.disk
          (Go.base64.EncodeToString [77, 97, 110]) "./output/a_1.png").1.files p
          = Example.disk.files p) ∧
    ((EditImage.DecodeBase64AndSaveImg Example.disk
        (Go.base64.EncodeToString [77, 97, 110]) "./output/a_1.png").2 = none ∧
      (EditImage.DecodeBase64AndSaveImg Example.disk
        (Go.base64.EncodeToString [77, 97, 110]) "./output/a_1.png").1.files "./output/a_1.png"
        = some [77, 97, 110] ∧
      ∀ p, p ≠ "./output/a_1.png" →
        (EditImage.DecodeBase64AndSaveImg Example.disk
          (Go.base64.EncodeToString [77, 97, 110]) "./output/a_1.png").1.files p
          = Example.disk.files p) :=
  DecodeBase64AndSaveImg_roundtrip Example.disk [77, 97, 110] "./output/a_1.png"
    (by decide) ⟨rfl, rfl, rfl⟩

/-- Claim C3: in both programs, when the other fields of a request pass validation, struct
validation succeeds if and only if the prompt is non-empty and at most 1000 characters long;
so the empty prompt and every prompt of more than 1000 characters are rejected and every prompt
of 1 to 1000 characters is accepted. -/
theorem prompt_validation (g : GenerateImageFromText.RequestBody) (e : EditImage.RequestBody)
    (hg : GenerateImageFromText.validateStruct { g with Prompt := "x" } = [])
    (he : EditImage.validateStruct { e with Prompt := "x" } = []) :
    (GenerateImageFromText.validateStruct g = [] ↔ g.Prompt ≠ "" ∧ g.Prompt.length ≤ 1000) ∧
    (EditImage.validateStruct e = [] ↔ e.Prompt ≠ "" ∧ e.Prompt.length ≤ 1000) ∧
    (g.Prompt = "" ∨ 1000 < g.Prompt.length → GenerateImageFromText.validateStruct g ≠ []) ∧
    (e.Prompt = "" ∨ 1000 < e.Prompt.length → EditImage.validateStruct e ≠ []) ∧
    (1 ≤ g.Prompt.length ∧ g.Prompt.length ≤ 1000 → GenerateImageFromText.validateStruct g = []) ∧
    (1 ≤ e.Prompt.length ∧ e.Prompt.length ≤ 1000 → EditImage.validateStruct e = []) := by
  rw [GenerateImageFromText.validateStruct_eq_nil] at hg
  rw [EditImage.validateStruct_eq_nil_edit] at he
  have hG : GenerateImageFromText.validateStruct g = [] ↔
      g.Prompt ≠ "" ∧ g.Prompt.length ≤ 1000 := by
    rw [GenerateImageFromText.validateStruct_eq_nil]
    exact ⟨fun h => h.1, fun h => ⟨h, hg.2⟩⟩
  have hE : EditImage.validateStruct e = [] ↔ e.Prompt ≠ "" ∧ e.Prompt.length ≤ 1000 := by
    rw [EditImage.validateStruct_eq_nil_edit]
    exact ⟨fun h => h.2.1, fun h => ⟨he.1, h, he.2.2⟩⟩
  have hlen : ∀ s : String, 1 ≤ s.length → s ≠ "" := by
    intro s hs h
    subst h
    exact absurd hs (by decide)
  refine ⟨hG, hE, ?_, ?_, ?_, ?_⟩
  · rintro (h | h) hv
    · exact (hG.1 hv).1 h
    · exact absurd (hG.1 hv).2 (by omega)
  · rintro (h | h) hv
    · exact (hE.1 hv).1 h
    · exact absurd (hE.1 hv).2 (by omega)
  · exact fun h => hG.2 ⟨hlen _ h.1, h.2⟩
  · exact fun h => hE.2 ⟨hlen _ h.1, h.2⟩

/-- Witness of claim C3: the requests built by the two programs. -/
theorem prompt_validation_witness :
    (GenerateImageFromText.validateStruct Example.generateRequest = [] ↔
      Example.generateRequest.Prompt ≠ "" ∧ Example.generateRequest.Prompt.length ≤ 1000) ∧
    (EditImage.validateStruct Example.editRequest = [] ↔
      Example.editRequest.Prompt ≠ "" ∧ Example.editRequest.Prompt.length ≤ 1000) :=
  ⟨(prompt_validation Example.generateRequest Example.editRequest (by decide) (by decide)).1,
    (prompt_validation Example.generateRequest Example.editRequest (by decide) (by decide)).2.1⟩

/-- Claim C8, as stated, fails: the result count 0 lies outside 1..10, yet both programs accept
a request that carries it (the tag `omitempty` skips the range check on the zero value). -/
theorem count_zero_accepted :
    ¬ ((1 : Int) ≤ 0 ∧ (0 : Int) ≤ 10) ∧
    GenerateImageFromText.validateStruct { Example.generateRequest with NumberOfResults := 0 }
      = [] ∧
    EditImage.validateStruct { Example.editRequest with NumberOfResults := 0 } = [] := by
  refine ⟨by decide, by decide, by decide⟩

/-- Claim C8, amended: in both programs, when the other fields of a request pass validation,
struct validation accepts the request exactly when its result count is 0 or lies in 1..10; so
every count in 1..10 is accepted and every count outside 1..10 other than 0 is rejected. -/
theorem count_validation (g : GenerateImageFromText.RequestBody) (e : EditImage.RequestBody)
    (hg : GenerateImageFromText.validateStruct { g with NumberOfResults := 1 } = [])
    (he : EditImage.validateStruct { e with NumberOfResults := 1 } = []) :
    (GenerateImageFromText.validateStruct g = [] ↔
      g.NumberOfResults = 0 ∨ (1 ≤ g.NumberOfResults ∧ g.NumberOfResults ≤ 10)) ∧
    (EditImage.validateStruct e = [] ↔
      e.NumberOfResults = 0 ∨ (1 ≤ e.NumberOfResults ∧ e.NumberOfResults ≤ 10)) := by
  rw [GenerateImageFromText.validateStruct_eq_nil] at hg
  rw [EditImage.validateStruct_eq_nil_edit] at he
  rw [GenerateImageFromText.validateStruct_eq_nil, EditImage.validateStruct_eq_nil_edit]
  exact ⟨⟨fun h => h.2.1, fun h => ⟨hg.1, h, hg.2.2⟩⟩,
    ⟨fun h => h.2.2.1, fun h => ⟨he.1, he.2.1, h, he.2.2.2⟩⟩⟩

/-- Witness of the amended claim C8: the requests built by the two programs. -/
theorem count_validation_witness :
    (GenerateImageFromText.validateStruct Example.generateRequest = [] ↔
      Example.generateRequest.NumberOfResults = 0 ∨
        (1 ≤ Example.generateRequest.NumberOfResults ∧
          Example.generateRequest.NumberOfResults ≤ 10)) ∧
    (EditImage.validateStruct Example.editRequest = [] ↔
      Example.editRequest.NumberOfResults = 0 ∨
        (1 ≤ Example.editRequest.NumberOfResults ∧
          Example.editRequest.NumberOfResults ≤ 10)) :=
  count_validation Example.generateRequest Example.editRequest (by decide) (by decide)

/-- Claim C9, as stated, fails: the empty string is none of the listed sizes and none of the
listed response formats, yet both programs accept a request whose `Size` is empty and a request
whose `ResponseFormat` is empty, the other fields being those that `main` sets (the tag
`omitempty` skips the `oneof` check on the zero value). -/
theorem empty_enum_accepted :
    ¬ ("" = "256x256" ∨ "" = "512x512" ∨ "" = "1024x1024") ∧
    ¬ ("" = "url" ∨ "" = "b64_json") ∧
    GenerateImageFromText.validateStruct { Example.generateRequest with Size := "" } = [] ∧
    GenerateImageFromText.validateStruct { Example.generateRequest with ResponseFormat := "" }
      = [] ∧
    EditImage.validateStruct { Example.editRequest with Size := "" } = [] ∧
    EditImage.validateStruct { Example.editRequest with ResponseFormat := "" } = [] := by
  refine ⟨by decide, by decide, by decide, by decide, by decide, by decide⟩

/-- Claim C9, amended: in both programs, when the other fields of a request pass validation,
struct validation accepts the request exactly when `Size` is empty or one of `"256x256"`,
`"512x512"`, `"1024x1024"` and `ResponseFormat` is empty or one of `"url"`, `"b64_json"`; so
each listed value is accepted and every non-empty string not listed is rejected. -/
theorem enum_validation (g : GenerateImageFromText.RequestBody) (e : EditImage.RequestBody)
    (hg : GenerateImageFromText.validateStruct
      { g with Size := "256x256", ResponseFormat := "url" } = [])
    (he : EditImage.validateStruct { e with Size := "256x256", ResponseFormat := "url" } = []) :
    (GenerateImageFromText.validateStruct g = [] ↔
      (g.Size = "" ∨ g.Size = "256x256" ∨ g.Size = "512x512" ∨ g.Size = "1024x1024") ∧
      (g.ResponseFormat = "" ∨ g.ResponseFormat = "url" ∨ g.ResponseFormat = "b64_json")) ∧
    (EditImage.validateStruct e = [] ↔
      (e.Size = "" ∨ e.Size = "256x256" ∨ e.Size = "512x512" ∨ e.Size = "1024x1024") ∧
      (e.ResponseFormat = "" ∨ e.ResponseFormat = "url" ∨ e.ResponseFormat = "b64_json")) := by
  rw [GenerateImageFromText.validateStruct_eq_nil] at hg
  rw [EditImage.validateStruct_eq_nil_edit] at he
  rw [GenerateImageFromText.validateStruct_eq_nil, EditImage.validateStruct_eq_nil_edit]
  exact ⟨⟨fun h => h.2.2, fun h => ⟨hg.1, hg.2.1, h⟩⟩,
    ⟨fun h => h.2.2.2, fun h => ⟨he.1, he.2.1, he.2.2.1, h⟩⟩⟩

/-- Witness of the amended claim C9: the requests built by the two programs. -/
theorem enum_validation_witness :
    (GenerateImageFromText.validateStruct Example.generateRequest = [] ↔
      (Example.generateRequest.Size = "" ∨ Example.generateRequest.Size = "256x256" ∨
        Example.generateRequest.Size = "512x512" ∨
        Example.generateRequest.Size = "1024x1024") ∧
      (Example.generateRequest.ResponseFormat = "" ∨
        Example.generateRequest.ResponseFormat = "url" ∨
        Example.generateRequest.ResponseFormat = "b64_json")) ∧
    (EditImage.validateStruct Example.editRequest = [] ↔
      (Example.editRequest.Size = "" ∨ Example.editRequest.Size = "256x256" ∨
        Example.editRequest.Size = "512x512" ∨ Example.editRequest.Size = "1024x1024") ∧
      (Example.editRequest.ResponseFormat = "" ∨ Example.editRequest.ResponseFormat = "url" ∨
        Example.editRequest.ResponseFormat = "b64_json")) :=
  enum_validation Example.generateRequest Example.editRequest (by decide) (by decide)

/-- Claim C4: for an opened file whose metadata can be read, `ValidateImage` returns the
extension error whenever the extension of the file name is not `".png"` (whatever the size, so
the extension is checked first), the size error when the extension is `".png"` and the size
exceeds 4000000 bytes, and no error when the extension is `".png"` and the size is at most
4000000 bytes; hence it accepts exactly the files whose name ends in `".png"` and whose size is
at most 4000000 bytes. -/
theorem ValidateImage_spec (f : OsFile) (info : FileInfo) (h : f.stat = .ok info) :
    (Go.Ext info.Name ≠ ".png" →
      EditImage.ValidateImage (some f) = some (.new "The image extension must be PNG")) ∧
    (Go.Ext info.Name = ".png" → 4000000 < info.Size →
      EditImage.ValidateImage (some f) =
        some (.new "The size of the image must not exceed 4MB")) ∧
    (Go.Ext info.Name = ".png" → info.Size ≤ 4000000 →
      EditImage.ValidateImage (some f) = none) ∧
    (EditImage.ValidateImage (some f) = none ↔
      ['.', 'p', 'n', 'g'] <:+ info.Name.data ∧ info.Size ≤ 4000000) := by
  have hstat : OsFile.Stat (some f) = .ok info := h
  refine ⟨?_, ?_, ?_, ?_⟩
  · intro hext
    simp [EditImage.ValidateImage, hstat, hext]
  · intro hext hsize
    simp [EditImage.ValidateImage, hstat, hext, hsize]
  · intro hext hsize
    simp [EditImage.ValidateImage, hstat, hext, hsize]
  · rw [← Go.Ext_eq_png_iff]
    by_cases hext : Go.Ext info.Name = ".png"
    · by_cases hsize : info.Size ≤ 4000000
      · simp [EditImage.ValidateImage, hstat, hext, hsize]
      · simp [EditImage.ValidateImage, hstat, hext, hsize]
    · simp [EditImage.ValidateImage, hstat, hext]

/-- Witness of claim C4: a PNG file of 1024 bytes. -/
theorem ValidateImage_spec_witness :
    EditImage.ValidateImage (some Example.png) = none ↔
      ['.', 'p', 'n', 'g'] <:+ "boca_blanca.png".data ∧ (1024 : Int) ≤ 4000000 :=
  (ValidateImage_spec Example.png ⟨"boca_blanca.png", 1024⟩ rfl).2.2.2

/-- Claim C5, as stated, fails: the status code 101 is outside 200..299, yet on a response with
that code both programs call `DecodeBase64AndSaveImg` and create the output file of the first
result entry; nothing is logged. -/
theorem status_101_is_processed :
    ¬ ((200 : Int) ≤ 101 ∧ (101 : Int) ≤ 299) ∧
    (GenerateImageFromText.mainResponse Example.disk
      ⟨101, "101 Switching Protocols", none, .ok ⟨0, [Example.entryA]⟩⟩).trace =
      [.decodeCall "QQ==" "./output/Lionel_Messi_wearing_a_Boca_Juniors_jersey_1.png"] ∧
    (GenerateImageFromText.mainResponse Example.disk
      ⟨101, "101 Switching Protocols", none, .ok ⟨0, [Example.entryA]⟩⟩).fs.files
      "./output/Lionel_Messi_wearing_a_Boca_Juniors_jersey_1.png" = some [65] ∧
    Example.disk.files "./output/Lionel_Messi_wearing_a_Boca_Juniors_jersey_1.png" = none ∧
    (EditImage.mainResponse Example.disk
      ⟨101, "101 Switching Protocols", none, .ok ⟨0, [Example.entryA]⟩⟩).trace =
      [.decodeCall "QQ==" (EditImage.outputPath 0)] ∧
    (EditImage.mainResponse Example.disk
      ⟨101, "101 Switching Protocols", none, .ok ⟨0, [Example.entryA]⟩⟩).fs.files
      (EditImage.outputPath 0) = some [65] ∧
    Example.disk.files (EditImage.outputPath 0) = none := by
  refine ⟨by decide, by decide, by decide, by decide, by decide, by decide, by decide⟩

/-- Claim C5, amended: for every response whose status code is greater than 299, each program
logs an error and ends without calling `DecodeBase64AndSaveImg`, and the file system is left
as it was, whatever the body contains. The log entry is the request failure, or the fatal error
of reading the body when that read fails. -/
theorem status_above_299 (fs : FileSystem) (response : Response)
    (h : 299 < response.StatusCode) :
    ((GenerateImageFromText.mainResponse fs response).fs = fs ∧
      (∀ b p, Event.decodeCall b p ∉ (GenerateImageFromText.mainResponse fs response).trace) ∧
      (((GenerateImageFromText.mainResponse fs response).exit = .returned ∧
          (GenerateImageFromText.mainResponse fs response).trace =
            [.logRequestFailed response.StatusCode response.Status]) ∨
        ∃ err, response.readAll = some err ∧
          (GenerateImageFromText.mainResponse fs response).exit = .fatal ∧
          (GenerateImageFromText.mainResponse fs response).trace = [.logFatal err])) ∧
    ((EditImage.mainResponse fs response).fs = fs ∧
      (∀ b p, Event.decodeCall b p ∉ (EditImage.mainResponse fs response).trace) ∧
      (((EditImage.mainResponse fs response).exit = .returned ∧
          (EditImage.mainResponse fs response).trace =
            [.logRequestFailed response.StatusCode response.Status]) ∨
        ∃ err, response.readAll = some err ∧
          (EditImage.mainResponse fs response).exit = .fatal ∧
          (EditImage.mainResponse fs response).trace = [.logFatal err])) := by
  have h2 : response.StatusCode > 299 := h
  constructor
  · cases hr : response.readAll with
    | some err => simp [GenerateImageFromText.mainResponse, hr]
    | none => simp [GenerateImageFromText.mainResponse, hr, h2]
  · cases hr : response.readAll with
    | some err => simp [EditImage.mainResponse, hr]
    | none => simp [EditImage.mainResponse, hr, h2]

/-- Witness of the amended claim C5: a 401 response with an unreadable JSON body. -/
theorem status_above_299_witness :
    (GenerateImageFromText.mainResponse Example.disk
        ⟨401, "401 Unauthorized", none, .error (.sys "unexpected end of JSON input")⟩).fs
      = Example.disk ∧
    (EditImage.mainResponse Example.disk
        ⟨401, "401 Unauthorized", none, .error (.sys "unexpected end of JSON input")⟩).fs
      = Example.disk :=
  ⟨(status_above_299 Example.disk
      ⟨401, "401 Unauthorized", none, .error (.sys "unexpected end of JSON input")⟩
      (by decide)).1.1,
    (status_above_299 Example.disk
      ⟨401, "401 Unauthorized", none, .error (.sys "unexpected end of JSON input")⟩
      (by decide)).2.1⟩

/-- Claim C6 fails on the code: when the first result entry has no `b64_json` member, or has a
number there, the type assertion of the loop panics; nothing is logged, and the second entry,
whose payload is valid, is never handed to `DecodeBase64AndSaveImg` and its file is not
written. This holds in both programs. -/
theorem missing_payload_panics :
    (GenerateImageFromText.mainResponse Example.disk
      ⟨200, "200 OK", none, .ok ⟨0, [Example.entryUrl, Example.entryA]⟩⟩).exit = .panicked ∧
    (GenerateImageFromText.mainResponse Example.disk
      ⟨200, "200 OK", none, .ok ⟨0, [Example.entryUrl, Example.entryA]⟩⟩).trace = [] ∧
    (GenerateImageFromText.mainResponse Example.disk
      ⟨200, "200 OK", none, .ok ⟨0, [Example.entryUrl, Example.entryA]⟩⟩).fs.files
      (GenerateImageFromText.outputPath 1) = none ∧
    (GenerateImageFromText.mainResponse Example.disk
      ⟨200, "200 OK", none, .ok ⟨0, [Example.entryNumber, Example.entryA]⟩⟩).exit = .panicked ∧
    (GenerateImageFromText.mainResponse Example.disk
      ⟨200, "200 OK", none, .ok ⟨0, [Example.entryNumber, Example.entryA]⟩⟩).trace = [] ∧
    (GenerateImageFromText.mainResponse Example.disk
      ⟨200, "200 OK", none, .ok ⟨0, [Example.entryNumber, Example.entryA]⟩⟩).fs.files
      (GenerateImageFromText.outputPath 1) = none ∧
    (EditImage.mainResponse Example.disk
      ⟨200, "200 OK", none, .ok ⟨0, [Example.entryUrl, Example.entryA]⟩⟩).exit = .panicked ∧
    (EditImage.mainResponse Example.disk
      ⟨200, "200 OK", none, .ok ⟨0, [Example.entryUrl, Example.entryA]⟩⟩).trace = [] ∧
    (EditImage.mainResponse Example.disk
      ⟨200, "200 OK", none, .ok ⟨0, [Example.entryUrl, Example.entryA]⟩⟩).fs.files
      (EditImage.outputPath 1) = none ∧
    (EditImage.mainResponse Example.disk
      ⟨200, "200 OK", none, .ok ⟨0, [Example.entryNumber, Example.entryA]⟩⟩).exit = .panicked ∧
    (EditImage.mainResponse Example.disk
      ⟨200, "200 OK", none, .ok ⟨0, [Example.entryNumber, Example.entryA]⟩⟩).trace = [] ∧
    (EditImage.mainResponse Example.disk
      ⟨200, "200 OK", none, .ok ⟨0, [Example.entryNumber, Example.entryA]⟩⟩).fs.files
      (EditImage.outputPath 1) = none := by
  refine ⟨by decide, by decide, by decide, by decide, by decide, by decide, by decide,
    by decide, by decide, by decide, by decide, by decide⟩

/-- Claim C7, as stated, fails: on a disk where the output file cannot be created, a
successful response with one entry that holds valid base64 leads to no file at all; the call
is made, its error is logged, and the path stays absent. -/
theorem unwritable_output_writes_nothing :
    Spec.payload Example.entryA = some [65] ∧
    (GenerateImageFromText.mainResponse Example.noOutputDir
      ⟨200, "200 OK", none, .ok ⟨0, [Example.entryA]⟩⟩).fs.files
      (GenerateImageFromText.outputPath 0) = none ∧
    (GenerateImageFromText.mainResponse Example.noOutputDir
      ⟨200, "200 OK", none, .ok ⟨0, [Example.entryA]⟩⟩).trace =
      [.decodeCall "QQ==" (GenerateImageFromText.outputPath 0),
        .logImageError "Lionel_Messi_wearing_a_Boca_Juniors_jersey_1.png"
          (.sys "no such file or directory")] ∧
    (EditImage.mainResponse Example.noOutputDir
      ⟨200, "200 OK", none, .ok ⟨0, [Example.entryA]⟩⟩).fs.files
      (EditImage.outputPath 0) = none ∧
    (EditImage.mainResponse Example.noOutputDir
      ⟨200, "200 OK", none, .ok ⟨0, [Example.entryA]⟩⟩).trace =
      [.decodeCall "QQ==" (EditImage.outputPath 0),
        .logImageError (EditImage.GenerateFilename EditImage.INPUT_PROMPT 1)
          (.sys "no such file or directory")] := by
  refine ⟨by rfl, by decide, by decide, by decide, by decide⟩

/-- Claim C7, amended: for every response that the program treats as successful and that
carries `k` result entries all holding valid base64 strings, and for each of the two programs
separately, provided each of that program's `k` output paths can be created, written and
synced, the loop makes exactly one call per entry and logs nothing, the entry at 0-based
position `i` is written to `OUTPUT_DIR + GenerateFilename(INPUT_PROMPT, i+1)` with contents
equal to its decoded payload, no other file changes, and the `k` paths are pairwise distinct.
The condition on the paths of one program is not needed for the other. -/
theorem one_file_per_result (fs : FileSystem) (response : Response) (body : ResponseBody)
    (hcode : response.StatusCode ≤ 299) (hread : response.readAll = none)
    (hbody : response.unmarshal = .ok body)
    (hvalid : ∀ img ∈ body.Data, (Spec.payload img).isSome) :
    ((∀ j, j < body.Data.length → fs.Writable (GenerateImageFromText.outputPath j)) →
      (GenerateImageFromText.mainResponse fs response).exit = .returned ∧
      (GenerateImageFromText.mainResponse fs response).trace =
        Spec.calls GenerateImageFromText.outputPath 0 body.Data ∧
      (∀ j (h : j < body.Data.length),
        (GenerateImageFromText.mainResponse fs response).fs.files
          (GenerateImageFromText.OUTPUT_DIR ++ GenerateImageFromText.GenerateFilename
            GenerateImageFromText.INPUT_PROMPT ((j : Int) + 1))
          = Spec.payload (body.Data.get ⟨j, h⟩)) ∧
      (∀ p, (∀ j, j < body.Data.length → p ≠ GenerateImageFromText.outputPath j) →
        (GenerateImageFromText.mainResponse fs response).fs.files p = fs.files p) ∧
      (∀ i j, GenerateImageFromText.outputPath i = GenerateImageFromText.outputPath j → i = j)) ∧
    ((∀ j, j < body.Data.length → fs.Writable (EditImage.outputPath j)) →
      (EditImage.mainResponse fs response).exit = .returned ∧
      (EditImage.mainResponse fs response).trace =
        Spec.calls EditImage.outputPath 0 body.Data ∧
      (∀ j (h : j < body.Data.length),
        (EditImage.mainResponse fs response).fs.files
          (EditImage.OUTPUT_DIR ++ EditImage.GenerateFilename
            EditImage.INPUT_PROMPT ((j : Int) + 1))
          = Spec.payload (body.Data.get ⟨j, h⟩)) ∧
      (∀ p, (∀ j, j < body.Data.length → p ≠ EditImage.outputPath j) →
        (EditImage.mainResponse fs response).fs.files p = fs.files p) ∧
      (∀ i j, EditImage.outputPath i = EditImage.outputPath j → i = j)) := by
  have hc : ¬ response.StatusCode > 299 := by omega
  constructor
  · intro hwG
    have hrun : GenerateImageFromText.mainResponse fs response =
        GenerateImageFromText.mainLoop body.Data 0 none fs [] := by
      simp only [GenerateImageFromText.mainResponse, hread, hc, if_false, hbody]
    obtain ⟨h1, h2, h3, h4⟩ := GenerateImageFromText.mainLoop_all_valid body.Data 0 none fs []
      hvalid (fun j hj => by simpa using hwG j hj)
    rw [hrun]
    refine ⟨h1, by simpa using h2, ?_, ?_, GenerateImageFromText.outputPath_injective⟩
    · intro j h
      have := h3 j h
      simpa using this
    · intro p hp
      exact h4 p (fun j hj => by simpa using hp j hj)
  · intro hwE
    have hrun : EditImage.mainResponse fs response =
        EditImage.mainLoop body.Data 0 none fs [] := by
      simp only [EditImage.mainResponse, hread, hc, if_false, hbody]
    obtain ⟨h1, h2, h3, h4⟩ := EditImage.mainLoop_all_valid_edit body.Data 0 none fs []
      hvalid (fun j hj => by simpa using hwE j hj)
    rw [hrun]
    refine ⟨h1, by simpa using h2, ?_, ?_, EditImage.outputPath_injective_edit⟩
    · intro j h
      have := h3 j h
      simpa using this
    · intro p hp
      exact h4 p (fun j hj => by simpa using hp j hj)

/-- Witness of the amended claim C7: two results on an empty, writable disk, for both programs;
and one result on a disk that refuses paths of more than 100 characters, where the paths of the
text-to-image program are writable (those of the edit program are not) and its run writes the
file. -/
theorem one_file_per_result_witness :
    (GenerateImageFromText.mainResponse Example.disk
        ⟨200, "200 OK", none, .ok ⟨0, [Example.entryA, Example.entryB]⟩⟩).trace =
      Spec.calls GenerateImageFromText.outputPath 0 [Example.entryA, Example.entryB] ∧
    (EditImage.mainResponse Example.disk
        ⟨200, "200 OK", none, .ok ⟨0, [Example.entryA, Example.entryB]⟩⟩).trace =
      Spec.calls EditImage.outputPath 0 [Example.entryA, Example.entryB] ∧
    ¬ Example.shortPathsOnly.Writable (EditImage.outputPath 0) ∧
    (GenerateImageFromText.mainResponse Example.shortPathsOnly
        ⟨200, "200 OK", none, .ok ⟨0, [Example.entryA]⟩⟩).trace =
      Spec.calls GenerateImageFromText.outputPath 0 [Example.entryA] :=
  ⟨((one_file_per_result Example.disk
      ⟨200, "200 OK", none, .ok ⟨0, [Example.entryA, Example.entryB]⟩⟩
      ⟨0, [Example.entryA, Example.entryB]⟩ (by decide) rfl rfl (by decide)).1
      (fun _ _ => ⟨rfl, rfl, rfl⟩)).2.1,
    ((one_file_per_result Example.disk
      ⟨200, "200 OK", none, .ok ⟨0, [Example.entryA, Example.entryB]⟩⟩
      ⟨0, [Example.entryA, Example.entryB]⟩ (by decide) rfl rfl (by decide)).2
      (fun _ _ => ⟨rfl, rfl, rfl⟩)).2.1,
    (fun h => absurd h.1 (by decide)),
    ((one_file_per_result Example.shortPathsOnly
      ⟨200, "200 OK", none, .ok ⟨0, [Example.entryA]⟩⟩
      ⟨0, [Example.entryA]⟩ (by decide) rfl rfl (by decide)).1
      (fun j hj => by
        have hj0 : j = 0 := by
          have : j < 1 := hj
          omega
        subst hj0
        exact ⟨by decide, rfl, rfl⟩)).2.1⟩

/-- Claim C10 fails on the code: struct validation does not look at a nil mask, but for a
request without a mask `CreateFormData` applied to `ParseStructRequestBody` never produces a
body, in whatever order the map is visited: the entry `"mask"` holds a nil `*os.File`, whose
`Name()` panics; when the image can be read the run always ends in that panic. -/
theorem nil_mask_never_encodes (req : EditImage.RequestBody)
    (order : List (String × EditImage.Reader)) (hmask : req.Mask = none)
    (horder : order.Perm (EditImage.ParseStructRequestBody req)) :
    EditImage.validateStruct req = EditImage.validateStruct { req with Mask := some Example.png } ∧
    (∀ parts, EditImage.CreateFormData order [] ≠ .ok parts) ∧
    (∀ img b, req.Image = some img → img.data = .ok b →
      EditImage.CreateFormData order [] = .panic) := by
  have hmem : ∃ key, (key, EditImage.Reader.file none) ∈ order := by
    refine ⟨"mask", horder.mem_iff.2 ?_⟩
    simp [EditImage.ParseStructRequestBody, hmask]
  refine ⟨?_, ?_, ?_⟩
  · simp only [EditImage.validateStruct, EditImage.RequestBody.fields, Go.validator.Struct,
      List.filterMap_cons, Go.validator.mask_field]
  · intro parts hparts
    rcases EditImage.CreateFormData_nil_file order [] hmem with h | ⟨err, h⟩
    · rw [h] at hparts
      exact absurd hparts (by simp)
    · rw [h] at hparts
      exact absurd hparts (by simp)
  · intro img b himg hdata
    apply EditImage.CreateFormData_nil_file_panics order [] hmem
    intro key x hx
    have hx2 := horder.mem_iff.1 hx
    simp only [EditImage.ParseStructRequestBody, List.mem_cons, Prod.mk.injEq,
      EditImage.Reader.file.injEq, reduceCtorEq, and_false, List.mem_singleton,
      List.not_mem_nil, or_false, hmask, himg, Option.some.injEq] at hx2
    rcases hx2 with ⟨_, h⟩
    exact ⟨b, h ▸ hdata⟩

/-- Witness of the failure of claim C10: the request of `main` with a readable image and no
mask passes struct validation and panics in `CreateFormData`. -/
theorem nil_mask_never_encodes_witness :
    EditImage.validateStruct Example.editRequest = [] ∧
    EditImage.CreateFormData (EditImage.ParseStructRequestBody Example.editRequest) []
      = .panic :=
  ⟨by decide,
    (nil_mask_never_encodes Example.editRequest
      (EditImage.ParseStructRequestBody Example.editRequest) rfl (List.Perm.refl _)).2.2
      Example.png [137, 80, 78, 71] rfl rfl⟩
